import Mathlib

/-!
Verification development for the Tempus core: a shallow embedding of
`PQImporter::import_graph` (src/pgsql_importer.cc) and of the Roadmap/Step/Cost
model (src/src/core/roadmap.hh), together with theorems settling the spec's
claims about them.

Conventions of the embedding:
* Database ids and graph handles are `Nat`; BGL vertex/edge descriptors are
  modelled as arena indices into dense lists (a vertex handle is an index into
  `nodes`, an edge handle an index into `edges`).  A value-initialized
  descriptor (what `std::map::operator[]` default-constructs) is `0`.
* `std::map<db_id_t, _>` is an association list with `std::map` semantics:
  `operator[]` used as an rvalue default-inserts `0` for an absent key,
  `operator[] =` overwrites an existing entry.
* Floating point fractions passed to the progression callback are modelled as
  exact rationals (`ℚ`); the cast to `float` in the source is a monotone
  rounding of these values.
* Row streams stand for the `pqxx::result` row sequences, with fields already
  extracted to their logical types.
-/

/-- In-place update of the element at index `i` (out-of-range: no change). -/
def listModify {α : Type} (l : List α) (i : Nat) (f : α → α) : List α :=
  match l, i with
  | [], _ => []
  | x :: t, 0 => f x :: t
  | x :: t, n + 1 => x :: listModify t n f

@[simp] theorem listModify_nil {α : Type} (i : Nat) (f : α → α) :
    listModify ([] : List α) i f = [] := rfl

@[simp] theorem listModify_cons_zero {α : Type} (x : α) (t : List α) (f : α → α) :
    listModify (x :: t) 0 f = f x :: t := rfl

@[simp] theorem listModify_cons_succ {α : Type} (x : α) (t : List α) (n : Nat) (f : α → α) :
    listModify (x :: t) (n + 1) f = x :: listModify t n f := rfl

theorem listModify_append_length {α : Type} (l : List α) (x : α) (f : α → α) :
    listModify (l ++ [x]) l.length f = l ++ [f x] := by
  induction l with
  | nil => rfl
  | cons y t ih => simp [ih]

theorem getD_append_left {α : Type} (l l' : List α) (i : Nat) (d : α) (h : i < l.length) :
    (l ++ l').getD i d = l.getD i d := by
  induction l generalizing i with
  | nil => simp at h
  | cons x t ih =>
    cases i with
    | zero => rfl
    | succ n => simpa using ih n (by simpa using h)

theorem getD_append_length {α : Type} (l : List α) (x : α) (l' : List α) (d : α) :
    (l ++ x :: l').getD l.length d = x := by
  induction l with
  | nil => rfl
  | cons y t ih => simpa using ih

/-! ### The identifier registry: `std::map<db_id_t, descriptor>` -/

/-- Association list standing for `std::map<Tempus::db_id_t, descriptor>`. -/
abbrev IdMap := List (Nat × Nat)

/-- `map.find(k)`: first (and, by `mapInsert` construction, only) entry for `k`. -/
def mapFind? (m : IdMap) (k : Nat) : Option Nat :=
  match m with
  | [] => none
  | (k', v) :: rest => if k' = k then some v else mapFind? rest k

/-- `map[k] = v`: overwrite the entry for `k`, or insert one if absent. -/
def mapInsert (m : IdMap) (k v : Nat) : IdMap :=
  match m with
  | [] => [(k, v)]
  | (k', v') :: rest => if k' = k then (k, v) :: rest else (k', v') :: mapInsert rest k v

/-- `map[k]` used as an rvalue: returns the mapped descriptor, default-inserting
a value-initialized descriptor (`0`) when the key is absent — the `std::map`
semantics the importer relies on. -/
def mapGetOrInsert (m : IdMap) (k : Nat) : Nat × IdMap :=
  match mapFind? m k with
  | some v => (v, m)
  | none => (0, mapInsert m k 0)

@[simp] theorem mapFind?_nil (k : Nat) : mapFind? [] k = none := rfl

theorem mapFind?_insert (m : IdMap) (k v k' : Nat) :
    mapFind? (mapInsert m k v) k' = if k = k' then some v else mapFind? m k' := by
  induction m with
  | nil =>
    by_cases h : k = k' <;> simp [mapInsert, mapFind?, h]
  | cons p rest ih =>
    obtain ⟨k₀, v₀⟩ := p
    by_cases h₀ : k₀ = k
    · subst h₀
      by_cases h : k₀ = k' <;> simp [mapInsert, mapFind?, h]
    · by_cases h : k₀ = k'
      · subst h
        have : ¬ k = k₀ := fun hh => h₀ hh.symm
        simp [mapInsert, mapFind?, h₀, this]
      · simp [mapInsert, mapFind?, h₀, h, ih]

theorem mapGetOrInsert_found (m : IdMap) (k v : Nat) (h : mapFind? m k = some v) :
    mapGetOrInsert m k = (v, m) := by
  simp [mapGetOrInsert, h]

theorem mapGetOrInsert_absent (m : IdMap) (k : Nat) (h : mapFind? m k = none) :
    mapGetOrInsert m k = (0, mapInsert m k 0) := by
  simp [mapGetOrInsert, h]

/-! ### Row streams (logical content of the four SELECTs) -/

/-- Row of `SELECT id, junction, bifurcation FROM tempus.road_node`. -/
structure RoadNodeRow where
  id : Nat
  junction : Bool
  bifurcation : Bool
deriving DecidableEq

/-- Row of the `tempus.road_section` SELECT. -/
structure RoadSectionRow where
  id : Nat
  road_type : Option Int
  node_from : Nat
  node_to : Nat
  transport_type_ft : Nat
  transport_type_tf : Nat
  length : ℚ
  car_speed_limit : ℚ
  car_average_speed : ℚ
  bus_average_speed : ℚ
  road_name : String
  address_left_side : String
  address_right_side : String
  lane : Nat
  is_roundabout : Bool
  is_bridge : Bool
  is_tunnel : Bool
  is_ramp : Bool
  is_tollway : Bool
deriving DecidableEq

/-- Row of the `tempus.pt_stop` SELECT. -/
structure StopRow where
  id : Nat
  name : String
  location_type : Bool
  parent_station : Nat
  road_section_id : Nat
  zone_id : Nat
  abscissa_road_section : ℚ
deriving DecidableEq

/-- Row of `SELECT stop_from, stop_to FROM tempus.pt_section`. -/
structure PtSectionRow where
  stop_from : Nat
  stop_to : Nat
deriving DecidableEq

/-! ### Graph structures

Modelled from the spec: the concrete graph types (`Road::Graph`,
`PublicTransport::Graph` and their bundled `Node`/`Section`/`Stop` properties)
live in headers that are not under src/; §3 and §9 of the spec describe them as
arena-and-index structures whose handles are stable integer indices, with the
bundled property fields listed in §3/§6. -/

/-- `Road::Node` bundled vertex property; `vertex` stores the node's own handle. -/
structure RoadNode where
  db_id : Nat
  is_junction : Bool
  is_bifurcation : Bool
  vertex : Nat
deriving DecidableEq

def dfltRoadNode : RoadNode := ⟨0, false, false, 0⟩

/-- `Road::Section` bundled edge property; `edge` stores the section's own handle. -/
structure RoadSection where
  db_id : Nat
  road_type : Option Int
  transport_type_ft : Nat
  transport_type_tf : Nat
  length : ℚ
  car_speed_limit : ℚ
  car_average_speed : ℚ
  bus_average_speed : ℚ
  road_name : String
  address_left_side : String
  address_right_side : String
  lane : Nat
  is_roundabout : Bool
  is_bridge : Bool
  is_tunnel : Bool
  is_ramp : Bool
  is_tollway : Bool
  edge : Nat
deriving DecidableEq

def dfltRoadSection : RoadSection :=
  ⟨0, none, 0, 0, 0, 0, 0, 0, "", "", "", 0, false, false, false, false, false, 0⟩

/-- A directed road edge: endpoint handles plus the bundled `Road::Section`. -/
structure RoadEdge where
  source : Nat
  target : Nat
  property : RoadSection
deriving DecidableEq

def dfltRoadEdge : RoadEdge := ⟨0, 0, dfltRoadSection⟩

/-- `Road::Graph`: vertex handle = index into `nodes`, edge handle = index into
`edges` (a multigraph: parallel edges are simply further entries). -/
structure RoadGraph where
  nodes : List RoadNode
  edges : List RoadEdge
deriving DecidableEq

/-- `PublicTransport::Stop` bundled vertex property. -/
structure Stop where
  db_id : Nat
  name : String
  is_station : Bool
  has_parent : Bool
  parent_station : Nat
  road_section : Nat
  zone_id : Nat
  abscissa_road_section : ℚ
  vertex : Nat
deriving DecidableEq

def dfltStop : Stop := ⟨0, "", false, false, 0, 0, 0, 0, 0⟩

/-- A PT edge: endpoint handles plus the stored `edge` handle (the bundled
`PublicTransport::Section` carries nothing else at this layer). -/
structure PTEdge where
  source : Nat
  target : Nat
  edge : Nat
deriving DecidableEq

def dfltPTEdge : PTEdge := ⟨0, 0, 0⟩

/-- `PublicTransport::Graph`. -/
structure PTGraph where
  stops : List Stop
  edges : List PTEdge
deriving DecidableEq

def emptyPTGraph : PTGraph := ⟨[], []⟩

/-- The multimodal container: one road graph plus the ordered collection of PT
graphs (`graph.road`, `graph.public_transports`). -/
structure MultimodalGraph where
  road : RoadGraph
  public_transports : List PTGraph
deriving DecidableEq

def emptyMultimodalGraph : MultimodalGraph := ⟨⟨[], []⟩, []⟩

/-- `boost::add_vertex(node, road_graph)`: appends, returns the new handle. -/
def addRoadVertex (g : RoadGraph) (n : RoadNode) : Nat × RoadGraph :=
  (g.nodes.length, { g with nodes := g.nodes ++ [n] })

/-- `road_graph[v].vertex = h`. -/
def setRoadVertexHandle (g : RoadGraph) (v h : Nat) : RoadGraph :=
  { g with nodes := listModify g.nodes v (fun nd => { nd with vertex := h }) }

/-- `boost::add_edge(u, v, property, road_graph)`: always adds (multigraph). -/
def addRoadEdge (g : RoadGraph) (u v : Nat) (p : RoadSection) : Nat × RoadGraph :=
  (g.edges.length, { g with edges := g.edges ++ [⟨u, v, p⟩] })

/-- `road_graph[e].edge = h`. -/
def setRoadEdgeHandle (g : RoadGraph) (e h : Nat) : RoadGraph :=
  { g with edges :=
      listModify g.edges e (fun ed => { ed with property := { ed.property with edge := h } }) }

/-- `boost::add_vertex(stop, pt_graph)`. -/
def addPTVertex (g : PTGraph) (s : Stop) : Nat × PTGraph :=
  (g.stops.length, { g with stops := g.stops ++ [s] })

/-- `pt_graph[v].vertex = h`. -/
def setPTVertexHandle (g : PTGraph) (v h : Nat) : PTGraph :=
  { g with stops := listModify g.stops v (fun s => { s with vertex := h }) }

/-- `boost::add_edge(u, v, pt_graph)` (no property argument in the source). -/
def addPTEdge (g : PTGraph) (u v : Nat) : Nat × PTGraph :=
  (g.edges.length, { g with edges := g.edges ++ [⟨u, v, 0⟩] })

/-- `pt_graph[e].edge = h`. -/
def setPTEdgeHandle (g : PTGraph) (e h : Nat) : PTGraph :=
  { g with edges := listModify g.edges e (fun ed => { ed with edge := h }) }

/-! ### The import pipeline -/

/-- The importer's working state: the graph under construction, the fresh PT
graph pushed at entry, the three local id registries, and the sequence of
`(fraction, finished)` progression-callback invocations made so far. -/
structure ImportState where
  road_graph : RoadGraph
  pt_graph : PTGraph
  road_nodes_map : IdMap
  road_sections_map : IdMap
  pt_nodes_map : IdMap
  calls : List (ℚ × Bool)
deriving DecidableEq

/-- Body of the road-node loop (src/pgsql_importer.cc lines 40–54), for row
index `i` of `n`. -/
def importRoadNode (st : ImportState) (r : RoadNodeRow) (i n : Nat) : ImportState :=
  let node : RoadNode := { db_id := r.id, is_junction := r.junction,
                           is_bifurcation := r.bifurcation, vertex := 0 }
  let p := addRoadVertex st.road_graph node
  let v := p.1
  let m := mapInsert st.road_nodes_map node.db_id v
  let g := setRoadVertexHandle p.2 v v
  { st with road_graph := g, road_nodes_map := m,
            calls := st.calls ++ [(((i : ℚ) / (n : ℚ)) / 4, false)] }

/-- Body of the road-section loop (lines 61–99). -/
def importRoadSection (st : ImportState) (r : RoadSectionRow) (i n : Nat) : ImportState :=
  let sec : RoadSection :=
    { db_id := r.id, road_type := r.road_type,
      transport_type_ft := r.transport_type_ft, transport_type_tf := r.transport_type_tf,
      length := r.length, car_speed_limit := r.car_speed_limit,
      car_average_speed := r.car_average_speed, bus_average_speed := r.bus_average_speed,
      road_name := r.road_name, address_left_side := r.address_left_side,
      address_right_side := r.address_right_side, lane := r.lane,
      is_roundabout := r.is_roundabout, is_bridge := r.is_bridge, is_tunnel := r.is_tunnel,
      is_ramp := r.is_ramp, is_tollway := r.is_tollway, edge := 0 }
  let pf := mapGetOrInsert st.road_nodes_map r.node_from
  let pt := mapGetOrInsert pf.2 r.node_to
  let pe := addRoadEdge st.road_graph pf.1 pt.1 sec
  let g := setRoadEdgeHandle pe.2 pe.1 pe.1
  let ms := mapInsert st.road_sections_map sec.db_id pe.1
  { st with road_graph := g, road_nodes_map := pt.2, road_sections_map := ms,
            calls := st.calls ++ [(((i : ℚ) / (n : ℚ)) / 4 + 1/4, false)] }

/-- Body of the stop loop (lines 103–133): the parent reference is honored only
when `parent_station` is already in `pt_nodes_map`; the stop's road section is
read through `operator[]` (default-inserting on a missing id). -/
def importStop (st : ImportState) (r : StopRow) (i n : Nat) : ImportState :=
  let par := mapFind? st.pt_nodes_map r.parent_station
  let prs := mapGetOrInsert st.road_sections_map r.road_section_id
  let stop : Stop :=
    { db_id := r.id, name := r.name, is_station := r.location_type,
      has_parent := par.isSome, parent_station := par.getD 0,
      road_section := prs.1, zone_id := r.zone_id,
      abscissa_road_section := r.abscissa_road_section, vertex := 0 }
  let pv := addPTVertex st.pt_graph stop
  let m := mapInsert st.pt_nodes_map stop.db_id pv.1
  let g := setPTVertexHandle pv.2 pv.1 pv.1
  { st with pt_graph := g, road_sections_map := prs.2, pt_nodes_map := m,
            calls := st.calls ++ [(((i : ℚ) / (n : ℚ)) / 4 + 1/2, false)] }

/-- Body of the PT-section loop (lines 137–153). -/
def importPtSection (st : ImportState) (r : PtSectionRow) (i n : Nat) : ImportState :=
  let pf := mapGetOrInsert st.pt_nodes_map r.stop_from
  let pt := mapGetOrInsert pf.2 r.stop_to
  let pe := addPTEdge st.pt_graph pf.1 pt.1
  let g := setPTEdgeHandle pe.2 pe.1 pe.1
  { st with pt_graph := g, pt_nodes_map := pt.2,
            calls := st.calls ++ [(((i : ℚ) / (n : ℚ)) / 4 + 3/4, false)] }

/-- The road-node `for` loop. -/
def runRoadNodes (st : ImportState) (rows : List RoadNodeRow) (i n : Nat) : ImportState :=
  match rows with
  | [] => st
  | r :: rest => runRoadNodes (importRoadNode st r i n) rest (i + 1) n

/-- The road-section `for` loop. -/
def runRoadSections (st : ImportState) (rows : List RoadSectionRow) (i n : Nat) : ImportState :=
  match rows with
  | [] => st
  | r :: rest => runRoadSections (importRoadSection st r i n) rest (i + 1) n

/-- The stop `for` loop. -/
def runStops (st : ImportState) (rows : List StopRow) (i n : Nat) : ImportState :=
  match rows with
  | [] => st
  | r :: rest => runStops (importStop st r i n) rest (i + 1) n

/-- The PT-section `for` loop. -/
def runPtSections (st : ImportState) (rows : List PtSectionRow) (i n : Nat) : ImportState :=
  match rows with
  | [] => st
  | r :: rest => runPtSections (importPtSection st r i n) rest (i + 1) n

/-- `PQImporter::import_graph`: pushes a fresh PT graph onto
`graph.public_transports`, runs the four phases in their fixed order over the
four row streams, makes the final `progression(1.0, true)` call, and returns
the updated multimodal graph together with the full sequence of progression
calls.  (The source pushes the empty PT graph first and fills it in place
through `public_transports.back()`; the observable post-state is the final PT
graph appended, which is how it is expressed here.) -/
def import_graph (graph : MultimodalGraph) (road_nodes : List RoadNodeRow)
    (road_sections : List RoadSectionRow) (stop_rows : List StopRow)
    (pt_sections : List PtSectionRow) : MultimodalGraph × List (ℚ × Bool) :=
  let st0 : ImportState :=
    { road_graph := graph.road, pt_graph := emptyPTGraph,
      road_nodes_map := [], road_sections_map := [], pt_nodes_map := [], calls := [] }
  let st1 := runRoadNodes st0 road_nodes 0 road_nodes.length
  let st2 := runRoadSections st1 road_sections 0 road_sections.length
  let st3 := runStops st2 stop_rows 0 stop_rows.length
  let st4 := runPtSections st3 pt_sections 0 pt_sections.length
  ({ road := st4.road_graph,
     public_transports := graph.public_transports ++ [st4.pt_graph] },
   st4.calls ++ [(1, true)])

/-! ### Flattened forms of the loop bodies -/

/-- The `Road::Section` property as it ends up on the edge with handle `e`. -/
def mkRoadSectionProp (r : RoadSectionRow) (e : Nat) : RoadSection :=
  { db_id := r.id, road_type := r.road_type,
    transport_type_ft := r.transport_type_ft, transport_type_tf := r.transport_type_tf,
    length := r.length, car_speed_limit := r.car_speed_limit,
    car_average_speed := r.car_average_speed, bus_average_speed := r.bus_average_speed,
    road_name := r.road_name, address_left_side := r.address_left_side,
    address_right_side := r.address_right_side, lane := r.lane,
    is_roundabout := r.is_roundabout, is_bridge := r.is_bridge, is_tunnel := r.is_tunnel,
    is_ramp := r.is_ramp, is_tollway := r.is_tollway, edge := e }

/-- The `Stop` as it ends up on the vertex with handle `v`, given the outcome
`par` of the parent lookup and the resolved road-section handle `rs`. -/
def mkStop (r : StopRow) (par : Option Nat) (rs v : Nat) : Stop :=
  { db_id := r.id, name := r.name, is_station := r.location_type,
    has_parent := par.isSome, parent_station := par.getD 0,
    road_section := rs, zone_id := r.zone_id,
    abscissa_road_section := r.abscissa_road_section, vertex := v }

@[simp] theorem importRoadNode_road_nodes (st : ImportState) (r : RoadNodeRow) (i n : Nat) :
    (importRoadNode st r i n).road_graph.nodes
      = st.road_graph.nodes ++ [⟨r.id, r.junction, r.bifurcation, st.road_graph.nodes.length⟩] := by
  simp [importRoadNode, addRoadVertex, setRoadVertexHandle, listModify_append_length]

@[simp] theorem importRoadNode_road_edges (st : ImportState) (r : RoadNodeRow) (i n : Nat) :
    (importRoadNode st r i n).road_graph.edges = st.road_graph.edges := by
  simp [importRoadNode, addRoadVertex, setRoadVertexHandle]

@[simp] theorem importRoadNode_road_nodes_map (st : ImportState) (r : RoadNodeRow) (i n : Nat) :
    (importRoadNode st r i n).road_nodes_map
      = mapInsert st.road_nodes_map r.id st.road_graph.nodes.length := by
  simp [importRoadNode, addRoadVertex]

@[simp] theorem importRoadNode_road_sections_map (st : ImportState) (r : RoadNodeRow) (i n : Nat) :
    (importRoadNode st r i n).road_sections_map = st.road_sections_map := rfl

@[simp] theorem importRoadNode_pt_graph (st : ImportState) (r : RoadNodeRow) (i n : Nat) :
    (importRoadNode st r i n).pt_graph = st.pt_graph := rfl

@[simp] theorem importRoadNode_pt_nodes_map (st : ImportState) (r : RoadNodeRow) (i n : Nat) :
    (importRoadNode st r i n).pt_nodes_map = st.pt_nodes_map := rfl

@[simp] theorem importRoadNode_calls (st : ImportState) (r : RoadNodeRow) (i n : Nat) :
    (importRoadNode st r i n).calls = st.calls ++ [(((i : ℚ) / (n : ℚ)) / 4, false)] := rfl

@[simp] theorem importRoadSection_road_nodes (st : ImportState) (r : RoadSectionRow) (i n : Nat) :
    (importRoadSection st r i n).road_graph.nodes = st.road_graph.nodes := by
  simp [importRoadSection, addRoadEdge, setRoadEdgeHandle]

@[simp] theorem importRoadSection_road_edges (st : ImportState) (r : RoadSectionRow) (i n : Nat) :
    (importRoadSection st r i n).road_graph.edges
      = st.road_graph.edges
        ++ [⟨(mapGetOrInsert st.road_nodes_map r.node_from).1,
             (mapGetOrInsert (mapGetOrInsert st.road_nodes_map r.node_from).2 r.node_to).1,
             mkRoadSectionProp r st.road_graph.edges.length⟩] := by
  simp [importRoadSection, addRoadEdge, setRoadEdgeHandle, listModify_append_length,
        mkRoadSectionProp]

@[simp] theorem importRoadSection_road_nodes_map (st : ImportState) (r : RoadSectionRow) (i n : Nat) :
    (importRoadSection st r i n).road_nodes_map
      = (mapGetOrInsert (mapGetOrInsert st.road_nodes_map r.node_from).2 r.node_to).2 := rfl

@[simp] theorem importRoadSection_road_sections_map (st : ImportState) (r : RoadSectionRow) (i n : Nat) :
    (importRoadSection st r i n).road_sections_map
      = mapInsert st.road_sections_map r.id st.road_graph.edges.length := by
  simp [importRoadSection, addRoadEdge]

@[simp] theorem importRoadSection_pt_graph (st : ImportState) (r : RoadSectionRow) (i n : Nat) :
    (importRoadSection st r i n).pt_graph = st.pt_graph := rfl

@[simp] theorem importRoadSection_pt_nodes_map (st : ImportState) (r : RoadSectionRow) (i n : Nat) :
    (importRoadSection st r i n).pt_nodes_map = st.pt_nodes_map := rfl

@[simp] theorem importRoadSection_calls (st : ImportState) (r : RoadSectionRow) (i n : Nat) :
    (importRoadSection st r i n).calls
      = st.calls ++ [(((i : ℚ) / (n : ℚ)) / 4 + 1/4, false)] := rfl

@[simp] theorem importStop_pt_stops (st : ImportState) (r : StopRow) (i n : Nat) :
    (importStop st r i n).pt_graph.stops
      = st.pt_graph.stops
        ++ [mkStop r (mapFind? st.pt_nodes_map r.parent_station)
              (mapGetOrInsert st.road_sections_map r.road_section_id).1
              st.pt_graph.stops.length] := by
  simp [importStop, addPTVertex, setPTVertexHandle, listModify_append_length, mkStop]

@[simp] theorem importStop_pt_edges (st : ImportState) (r : StopRow) (i n : Nat) :
    (importStop st r i n).pt_graph.edges = st.pt_graph.edges := by
  simp [importStop, addPTVertex, setPTVertexHandle]

@[simp] theorem importStop_pt_nodes_map (st : ImportState) (r : StopRow) (i n : Nat) :
    (importStop st r i n).pt_nodes_map
      = mapInsert st.pt_nodes_map r.id st.pt_graph.stops.length := by
  simp [importStop, addPTVertex]

@[simp] theorem importStop_road_sections_map (st : ImportState) (r : StopRow) (i n : Nat) :
    (importStop st r i n).road_sections_map
      = (mapGetOrInsert st.road_sections_map r.road_section_id).2 := rfl

@[simp] theorem importStop_road_graph (st : ImportState) (r : StopRow) (i n : Nat) :
    (importStop st r i n).road_graph = st.road_graph := rfl

@[simp] theorem importStop_road_nodes_map (st : ImportState) (r : StopRow) (i n : Nat) :
    (importStop st r i n).road_nodes_map = st.road_nodes_map := rfl

@[simp] theorem importStop_calls (st : ImportState) (r : StopRow) (i n : Nat) :
    (importStop st r i n).calls
      = st.calls ++ [(((i : ℚ) / (n : ℚ)) / 4 + 1/2, false)] := rfl

@[simp] theorem importPtSection_pt_stops (st : ImportState) (r : PtSectionRow) (i n : Nat) :
    (importPtSection st r i n).pt_graph.stops = st.pt_graph.stops := by
  simp [importPtSection, addPTEdge, setPTEdgeHandle]

@[simp] theorem importPtSection_pt_edges (st : ImportState) (r : PtSectionRow) (i n : Nat) :
    (importPtSection st r i n).pt_graph.edges
      = st.pt_graph.edges
        ++ [⟨(mapGetOrInsert st.pt_nodes_map r.stop_from).1,
             (mapGetOrInsert (mapGetOrInsert st.pt_nodes_map r.stop_from).2 r.stop_to).1,
             st.pt_graph.edges.length⟩] := by
  simp [importPtSection, addPTEdge, setPTEdgeHandle, listModify_append_length]

@[simp] theorem importPtSection_pt_nodes_map (st : ImportState) (r : PtSectionRow) (i n : Nat) :
    (importPtSection st r i n).pt_nodes_map
      = (mapGetOrInsert (mapGetOrInsert st.pt_nodes_map r.stop_from).2 r.stop_to).2 := rfl

@[simp] theorem importPtSection_road_graph (st : ImportState) (r : PtSectionRow) (i n : Nat) :
    (importPtSection st r i n).road_graph = st.road_graph := rfl

@[simp] theorem importPtSection_road_nodes_map (st : ImportState) (r : PtSectionRow) (i n : Nat) :
    (importPtSection st r i n).road_nodes_map = st.road_nodes_map := rfl

@[simp] theorem importPtSection_road_sections_map (st : ImportState) (r : PtSectionRow) (i n : Nat) :
    (importPtSection st r i n).road_sections_map = st.road_sections_map := rfl

@[simp] theorem importPtSection_calls (st : ImportState) (r : PtSectionRow) (i n : Nat) :
    (importPtSection st r i n).calls
      = st.calls ++ [(((i : ℚ) / (n : ℚ)) / 4 + 3/4, false)] := rfl

/-! ### Per-phase frame lemmas -/

theorem runRoadNodes_frame (st : ImportState) (rows : List RoadNodeRow) (i n : Nat) :
    (runRoadNodes st rows i n).pt_graph = st.pt_graph
    ∧ (runRoadNodes st rows i n).pt_nodes_map = st.pt_nodes_map
    ∧ (runRoadNodes st rows i n).road_sections_map = st.road_sections_map
    ∧ (runRoadNodes st rows i n).road_graph.edges = st.road_graph.edges := by
  induction rows generalizing st i with
  | nil => simp [runRoadNodes]
  | cons r rest ih =>
    rw [runRoadNodes]
    refine ⟨?_, ?_, ?_, ?_⟩ <;> simp [(ih (importRoadNode st r i n) (i+1)).1,
      (ih (importRoadNode st r i n) (i+1)).2.1,
      (ih (importRoadNode st r i n) (i+1)).2.2.1,
      (ih (importRoadNode st r i n) (i+1)).2.2.2]

theorem runRoadSections_frame (st : ImportState) (rows : List RoadSectionRow) (i n : Nat) :
    (runRoadSections st rows i n).pt_graph = st.pt_graph
    ∧ (runRoadSections st rows i n).pt_nodes_map = st.pt_nodes_map
    ∧ (runRoadSections st rows i n).road_graph.nodes = st.road_graph.nodes := by
  induction rows generalizing st i with
  | nil => simp [runRoadSections]
  | cons r rest ih =>
    rw [runRoadSections]
    refine ⟨?_, ?_, ?_⟩ <;> simp [(ih (importRoadSection st r i n) (i+1)).1,
      (ih (importRoadSection st r i n) (i+1)).2.1,
      (ih (importRoadSection st r i n) (i+1)).2.2]

theorem runStops_frame (st : ImportState) (rows : List StopRow) (i n : Nat) :
    (runStops st rows i n).road_graph = st.road_graph
    ∧ (runStops st rows i n).road_nodes_map = st.road_nodes_map := by
  induction rows generalizing st i with
  | nil => simp [runStops]
  | cons r rest ih =>
    rw [runStops]
    refine ⟨?_, ?_⟩ <;> simp [(ih (importStop st r i n) (i+1)).1,
      (ih (importStop st r i n) (i+1)).2]

theorem runPtSections_frame (st : ImportState) (rows : List PtSectionRow) (i n : Nat) :
    (runPtSections st rows i n).road_graph = st.road_graph
    ∧ (runPtSections st rows i n).road_nodes_map = st.road_nodes_map
    ∧ (runPtSections st rows i n).road_sections_map = st.road_sections_map
    ∧ (runPtSections st rows i n).pt_graph.stops = st.pt_graph.stops := by
  induction rows generalizing st i with
  | nil => simp [runPtSections]
  | cons r rest ih =>
    rw [runPtSections]
    refine ⟨?_, ?_, ?_, ?_⟩ <;> simp [(ih (importPtSection st r i n) (i+1)).1,
      (ih (importPtSection st r i n) (i+1)).2.1,
      (ih (importPtSection st r i n) (i+1)).2.2.1,
      (ih (importPtSection st r i n) (i+1)).2.2.2]

/-! ### The progression-call sequence -/

/-- The calls made by one phase loop starting at row `i` over `cnt` remaining
rows of a stream of `n` rows, with phase offset `off`. -/
def phaseCallsFrom (off : ℚ) (i n cnt : Nat) : List (ℚ × Bool) :=
  (List.range cnt).map (fun j => (((i + j : ℕ) : ℚ) / (n : ℚ) / 4 + off, false))

/-- The calls made by a whole phase over a stream of `n` rows. -/
def phaseCalls (off : ℚ) (n : Nat) : List (ℚ × Bool) :=
  phaseCallsFrom off 0 n n

@[simp] theorem phaseCallsFrom_zero (off : ℚ) (i n : Nat) :
    phaseCallsFrom off i n 0 = [] := rfl

theorem phaseCallsFrom_succ (off : ℚ) (i n cnt : Nat) :
    phaseCallsFrom off i n (cnt + 1)
      = ((i : ℚ) / (n : ℚ) / 4 + off, false) :: phaseCallsFrom off (i + 1) n cnt := by
  unfold phaseCallsFrom
  rw [List.range_succ_eq_map, List.map_cons, List.map_map]
  simp only [Nat.add_zero]
  congr 1
  refine List.map_congr_left ?_
  intro j _
  have h : i + (j + 1) = i + 1 + j := by omega
  simp [Function.comp, Nat.succ_eq_add_one, h]

theorem runRoadNodes_calls (rows : List RoadNodeRow) (st : ImportState) (i n : Nat) :
    (runRoadNodes st rows i n).calls = st.calls ++ phaseCallsFrom 0 i n rows.length := by
  induction rows generalizing st i with
  | nil => simp [runRoadNodes]
  | cons r rest ih =>
    rw [runRoadNodes, ih]
    simp [phaseCallsFrom_succ]

theorem runRoadSections_calls (rows : List RoadSectionRow) (st : ImportState) (i n : Nat) :
    (runRoadSections st rows i n).calls = st.calls ++ phaseCallsFrom (1/4) i n rows.length := by
  induction rows generalizing st i with
  | nil => simp [runRoadSections]
  | cons r rest ih =>
    rw [runRoadSections, ih]
    simp [phaseCallsFrom_succ]

theorem runStops_calls (rows : List StopRow) (st : ImportState) (i n : Nat) :
    (runStops st rows i n).calls = st.calls ++ phaseCallsFrom (1/2) i n rows.length := by
  induction rows generalizing st i with
  | nil => simp [runStops]
  | cons r rest ih =>
    rw [runStops, ih]
    simp [phaseCallsFrom_succ]

theorem runPtSections_calls (rows : List PtSectionRow) (st : ImportState) (i n : Nat) :
    (runPtSections st rows i n).calls = st.calls ++ phaseCallsFrom (3/4) i n rows.length := by
  induction rows generalizing st i with
  | nil => simp [runPtSections]
  | cons r rest ih =>
    rw [runPtSections, ih]
    simp [phaseCallsFrom_succ]

/-- The full progression-call sequence of one import run. -/
theorem import_graph_calls (g : MultimodalGraph) (rn : List RoadNodeRow)
    (rs : List RoadSectionRow) (sr : List StopRow) (ps : List PtSectionRow) :
    (import_graph g rn rs sr ps).2
      = phaseCalls 0 rn.length ++ phaseCalls (1/4) rs.length
        ++ phaseCalls (1/2) sr.length ++ phaseCalls (3/4) ps.length ++ [(1, true)] := by
  simp [import_graph, phaseCalls, runRoadNodes_calls, runRoadSections_calls,
        runStops_calls, runPtSections_calls]

/-- Bounds of one phase's calls: each fraction lies in that phase's quarter. -/
theorem phaseCalls_bounds (off : ℚ) (n : Nat) (c : ℚ × Bool) (hc : c ∈ phaseCalls off n) :
    off ≤ c.1 ∧ c.1 < off + 1/4 ∧ c.2 = false := by
  unfold phaseCalls phaseCallsFrom at hc
  rw [List.mem_map] at hc
  obtain ⟨j, hj, rfl⟩ := hc
  rw [List.mem_range] at hj
  have hn : 0 < n := by omega
  have hnq : (0 : ℚ) < (n : ℚ) := by exact_mod_cast hn
  have hjq : ((0 + j : ℕ) : ℚ) / (n : ℚ) < 1 := by
    rw [div_lt_one hnq]
    exact_mod_cast by omega
  have hjq0 : (0 : ℚ) ≤ ((0 + j : ℕ) : ℚ) / (n : ℚ) := by positivity
  refine ⟨?_, ?_, rfl⟩
  · have : (0 : ℚ) ≤ ((0 + j : ℕ) : ℚ) / (n : ℚ) / 4 := by positivity
    linarith
  · have : ((0 + j : ℕ) : ℚ) / (n : ℚ) / 4 < 1 / 4 := by
      rw [div_lt_div_iff_of_pos_right (by norm_num : (0:ℚ) < 4)]
      exact hjq
    linarith

/-- One phase's call fractions are sorted. -/
theorem phaseCalls_sorted (off : ℚ) (n : Nat) :
    List.Pairwise (· ≤ ·) ((phaseCalls off n).map Prod.fst) := by
  unfold phaseCalls phaseCallsFrom
  rw [List.map_map, List.pairwise_map]
  refine (List.pairwise_lt_range n).imp ?_
  intro a b hab
  simp only [Function.comp]
  have hcast : ((0 + a : ℕ) : ℚ) ≤ ((0 + b : ℕ) : ℚ) := by exact_mod_cast by omega
  have hn : (0 : ℚ) ≤ (n : ℚ) := by positivity
  gcongr

theorem pairwiseLe_append_of_bound (l₁ l₂ : List ℚ) (b : ℚ)
    (h₁ : List.Pairwise (· ≤ ·) l₁) (h₂ : List.Pairwise (· ≤ ·) l₂)
    (hb₁ : ∀ x ∈ l₁, x ≤ b) (hb₂ : ∀ y ∈ l₂, b ≤ y) :
    List.Pairwise (· ≤ ·) (l₁ ++ l₂) := by
  rw [List.pairwise_append]
  exact ⟨h₁, h₂, fun x hx y hy => le_trans (hb₁ x hx) (hb₂ y hy)⟩

theorem mem_map_fst_phaseCalls (off : ℚ) (n : Nat) (x : ℚ)
    (hx : x ∈ (phaseCalls off n).map Prod.fst) : off ≤ x ∧ x < off + 1/4 := by
  rw [List.mem_map] at hx
  obtain ⟨c, hc, rfl⟩ := hx
  exact ⟨(phaseCalls_bounds off n c hc).1, (phaseCalls_bounds off n c hc).2.1⟩

/-- C3: over any four record streams, the fractions passed to the progression
callback are non-decreasing and lie in [0,1], and the final invocation —
exactly one call carries the finished flag, after all rows — has fraction 1
with finished = true; every earlier call has finished = false and fraction
strictly below 1. -/
theorem c3_progress_monotone_and_final (g : MultimodalGraph) (rn : List RoadNodeRow)
    (rs : List RoadSectionRow) (sr : List StopRow) (ps : List PtSectionRow) :
    List.Pairwise (· ≤ ·) (((import_graph g rn rs sr ps).2).map Prod.fst)
    ∧ (∀ c ∈ (import_graph g rn rs sr ps).2, 0 ≤ c.1 ∧ c.1 ≤ 1)
    ∧ ∃ pre, (import_graph g rn rs sr ps).2 = pre ++ [(1, true)]
        ∧ ∀ c ∈ pre, c.2 = false ∧ c.1 < 1 := by
  rw [import_graph_calls]
  refine ⟨?_, ?_, ?_⟩
  · simp only [List.map_append, List.append_assoc]
    have s1 := phaseCalls_sorted 0 rn.length
    have s2 := phaseCalls_sorted (1/4) rs.length
    have s3 := phaseCalls_sorted (1/2) sr.length
    have s4 := phaseCalls_sorted (3/4) ps.length
    have r4 : List.Pairwise (· ≤ ·)
        ((phaseCalls (3/4) ps.length).map Prod.fst ++ [((1:ℚ), true).1]) := by
      refine pairwiseLe_append_of_bound _ _ 1 s4 (by simp) ?_ ?_
      · intro x hx
        have := mem_map_fst_phaseCalls _ _ x hx
        linarith [this.2]
      · intro y hy
        simp at hy
        simp [hy]
    have r3 : List.Pairwise (· ≤ ·)
        ((phaseCalls (1/2) sr.length).map Prod.fst
          ++ ((phaseCalls (3/4) ps.length).map Prod.fst ++ [((1:ℚ), true).1])) := by
      refine pairwiseLe_append_of_bound _ _ (3/4) s3 r4 ?_ ?_
      · intro x hx
        have := mem_map_fst_phaseCalls _ _ x hx
        linarith [this.2]
      · intro y hy
        rcases List.mem_append.mp hy with hy | hy
        · exact (mem_map_fst_phaseCalls _ _ y hy).1
        · simp at hy
          simp [hy]
          norm_num
    have r2 : List.Pairwise (· ≤ ·)
        ((phaseCalls (1/4) rs.length).map Prod.fst
          ++ ((phaseCalls (1/2) sr.length).map Prod.fst
            ++ ((phaseCalls (3/4) ps.length).map Prod.fst ++ [((1:ℚ), true).1]))) := by
      refine pairwiseLe_append_of_bound _ _ (1/2) s2 r3 ?_ ?_
      · intro x hx
        have := mem_map_fst_phaseCalls _ _ x hx
        linarith [this.2]
      · intro y hy
        rcases List.mem_append.mp hy with hy | hy
        · exact (mem_map_fst_phaseCalls _ _ y hy).1
        · rcases List.mem_append.mp hy with hy | hy
          · have := (mem_map_fst_phaseCalls _ _ y hy).1
            linarith
          · simp at hy
            simp [hy]
            norm_num
    refine pairwiseLe_append_of_bound _ _ (1/4) s1 r2 ?_ ?_
    · intro x hx
      have := mem_map_fst_phaseCalls _ _ x hx
      linarith [this.2]
    · intro y hy
      rcases List.mem_append.mp hy with hy | hy
      · exact (mem_map_fst_phaseCalls _ _ y hy).1
      · rcases List.mem_append.mp hy with hy | hy
        · have := (mem_map_fst_phaseCalls _ _ y hy).1
          linarith
        · rcases List.mem_append.mp hy with hy | hy
          · have := (mem_map_fst_phaseCalls _ _ y hy).1
            linarith
          · simp at hy
            simp [hy]
            norm_num
  · intro c hc
    simp only [List.append_assoc, List.mem_append] at hc
    rcases hc with hc | hc | hc | hc | hc
    · have := phaseCalls_bounds _ _ c hc
      constructor <;> linarith [this.1, this.2.1]
    · have := phaseCalls_bounds _ _ c hc
      constructor <;> linarith [this.1, this.2.1]
    · have := phaseCalls_bounds _ _ c hc
      constructor <;> linarith [this.1, this.2.1]
    · have := phaseCalls_bounds _ _ c hc
      constructor <;> linarith [this.1, this.2.1]
    · simp at hc
      simp [hc]
  · refine ⟨phaseCalls 0 rn.length ++ phaseCalls (1/4) rs.length
      ++ phaseCalls (1/2) sr.length ++ phaseCalls (3/4) ps.length, by simp, ?_⟩
    intro c hc
    simp only [List.append_assoc, List.mem_append] at hc
    rcases hc with hc | hc | hc | hc <;>
      · have := phaseCalls_bounds _ _ c hc
        exact ⟨this.2.2, by linarith [this.2.1]⟩

/-- Witness for C3 at a concrete import (empty streams): the single call is
`(1, true)` and satisfies the bounds. -/
theorem c3_progress_witness :
    (0 : ℚ) ≤ (((1 : ℚ), true)).1 ∧ (((1 : ℚ), true)).1 ≤ 1 :=
  (c3_progress_monotone_and_final emptyMultimodalGraph [] [] [] []).2.1 (1, true)
    (by rw [import_graph_calls]; simp [phaseCalls])

/-- C6: the pipeline runs its four phases in the fixed order road nodes, road
sections, stops, PT sections — the call sequence decomposes into the four
phases' calls in that order followed by the final call — and every fraction
reported inside a phase with offset `off` lies in `[off, off + 1/4)`; an empty
stream contributes zero intermediate calls. -/
theorem c6_phase_order_and_quarters (g : MultimodalGraph) (rn : List RoadNodeRow)
    (rs : List RoadSectionRow) (sr : List StopRow) (ps : List PtSectionRow) :
    (import_graph g rn rs sr ps).2
      = phaseCalls 0 rn.length ++ phaseCalls (1/4) rs.length
        ++ phaseCalls (1/2) sr.length ++ phaseCalls (3/4) ps.length ++ [(1, true)]
    ∧ (∀ off : ℚ, ∀ n : Nat, ∀ c ∈ phaseCalls off n, off ≤ c.1 ∧ c.1 < off + 1/4)
    ∧ (∀ off : ℚ, phaseCalls off 0 = []) := by
  refine ⟨import_graph_calls g rn rs sr ps, ?_, ?_⟩
  · intro off n c hc
    exact ⟨(phaseCalls_bounds off n c hc).1, (phaseCalls_bounds off n c hc).2.1⟩
  · intro off
    rfl

/-- Witness for C6 at a concrete input: the single road-node call of a
one-node import lies in the first quarter. -/
theorem c6_phase_witness :
    (0 : ℚ) ≤ (((0 : ℚ), false)).1 ∧ (((0 : ℚ), false)).1 < 0 + 1/4 :=
  (c6_phase_order_and_quarters emptyMultimodalGraph [⟨1, false, false⟩] [] [] []).2.1 0 1
    (0, false) (by simp [phaseCalls, phaseCallsFrom])

/-! ### Per-phase state evolution -/

def dfltRoadNodeRow : RoadNodeRow := ⟨0, false, false⟩

def dfltRoadSectionRow : RoadSectionRow :=
  ⟨0, none, 0, 0, 0, 0, 0, 0, 0, 0, "", "", "", 0, false, false, false, false, false⟩

def dfltStopRow : StopRow := ⟨0, "", false, 0, 0, 0, 0⟩

def dfltPtSectionRow : PtSectionRow := ⟨0, 0⟩

theorem mapFind?_getOrInsert (m : IdMap) (k k' : Nat) :
    mapFind? (mapGetOrInsert m k).2 k'
      = if k = k' then some (mapGetOrInsert m k).1 else mapFind? m k' := by
  rcases h : mapFind? m k with _ | v
  · rw [mapGetOrInsert_absent m k h]
    simp [mapFind?_insert]
  · rw [mapGetOrInsert_found m k v h]
    by_cases hk : k = k'
    · subst hk
      simp [h]
    · simp [hk]

/-- The road nodes built by the node phase starting at vertex handle `base`. -/
def builtRoadNodes (base : Nat) : List RoadNodeRow → List RoadNode
  | [] => []
  | r :: rest => ⟨r.id, r.junction, r.bifurcation, base⟩ :: builtRoadNodes (base + 1) rest

@[simp] theorem builtRoadNodes_length (base : Nat) (rows : List RoadNodeRow) :
    (builtRoadNodes base rows).length = rows.length := by
  induction rows generalizing base with
  | nil => rfl
  | cons r rest ih => simp [builtRoadNodes, ih]

theorem builtRoadNodes_getD (base : Nat) (rows : List RoadNodeRow) (j : Nat)
    (hj : j < rows.length) :
    (builtRoadNodes base rows).getD j dfltRoadNode
      = ⟨(rows.getD j dfltRoadNodeRow).id, (rows.getD j dfltRoadNodeRow).junction,
         (rows.getD j dfltRoadNodeRow).bifurcation, base + j⟩ := by
  induction rows generalizing base j with
  | nil => simp at hj
  | cons r rest ih =>
    cases j with
    | zero => simp [builtRoadNodes]
    | succ k =>
      have hbk : base + 1 + k = base + (k + 1) := by omega
      have hih := ih (base + 1) k (by simpa using hj)
      rw [hbk] at hih
      simpa [builtRoadNodes] using hih

theorem runRoadNodes_nodes (rows : List RoadNodeRow) (st : ImportState) (i n : Nat) :
    (runRoadNodes st rows i n).road_graph.nodes
      = st.road_graph.nodes ++ builtRoadNodes st.road_graph.nodes.length rows := by
  induction rows generalizing st i with
  | nil => simp [runRoadNodes, builtRoadNodes]
  | cons r rest ih =>
    rw [runRoadNodes, ih]
    simp [builtRoadNodes]

theorem runRoadSections_edges_length (rows : List RoadSectionRow) (st : ImportState) (i n : Nat) :
    (runRoadSections st rows i n).road_graph.edges.length
      = st.road_graph.edges.length + rows.length := by
  induction rows generalizing st i with
  | nil => simp [runRoadSections]
  | cons r rest ih =>
    rw [runRoadSections, ih]
    simp
    omega

theorem runRoadSections_edges_stable (rows : List RoadSectionRow) (st : ImportState) (i n : Nat)
    (e : Nat) (he : e < st.road_graph.edges.length) (d : RoadEdge) :
    (runRoadSections st rows i n).road_graph.edges.getD e d = st.road_graph.edges.getD e d := by
  induction rows generalizing st i with
  | nil => simp [runRoadSections]
  | cons r rest ih =>
    rw [runRoadSections]
    rw [ih (importRoadSection st r i n) (i + 1) (by simp; omega)]
    simp only [importRoadSection_road_edges]
    exact getD_append_left _ _ _ _ he

theorem runStops_stops_length (rows : List StopRow) (st : ImportState) (i n : Nat) :
    (runStops st rows i n).pt_graph.stops.length = st.pt_graph.stops.length + rows.length := by
  induction rows generalizing st i with
  | nil => simp [runStops]
  | cons r rest ih =>
    rw [runStops, ih]
    simp
    omega

theorem runStops_stops_stable (rows : List StopRow) (st : ImportState) (i n : Nat)
    (v : Nat) (hv : v < st.pt_graph.stops.length) (d : Stop) :
    (runStops st rows i n).pt_graph.stops.getD v d = st.pt_graph.stops.getD v d := by
  induction rows generalizing st i with
  | nil => simp [runStops]
  | cons r rest ih =>
    rw [runStops]
    rw [ih (importStop st r i n) (i + 1) (by simp; omega)]
    simp only [importStop_pt_stops]
    exact getD_append_left _ _ _ _ hv

theorem runStops_pt_edges (rows : List StopRow) (st : ImportState) (i n : Nat) :
    (runStops st rows i n).pt_graph.edges = st.pt_graph.edges := by
  induction rows generalizing st i with
  | nil => simp [runStops]
  | cons r rest ih =>
    rw [runStops, ih]
    simp

theorem runPtSections_edges_length (rows : List PtSectionRow) (st : ImportState) (i n : Nat) :
    (runPtSections st rows i n).pt_graph.edges.length
      = st.pt_graph.edges.length + rows.length := by
  induction rows generalizing st i with
  | nil => simp [runPtSections]
  | cons r rest ih =>
    rw [runPtSections, ih]
    simp
    omega

theorem runPtSections_edges_stable (rows : List PtSectionRow) (st : ImportState) (i n : Nat)
    (e : Nat) (he : e < st.pt_graph.edges.length) (d : PTEdge) :
    (runPtSections st rows i n).pt_graph.edges.getD e d = st.pt_graph.edges.getD e d := by
  induction rows generalizing st i with
  | nil => simp [runPtSections]
  | cons r rest ih =>
    rw [runPtSections]
    rw [ih (importPtSection st r i n) (i + 1) (by simp; omega)]
    simp only [importPtSection_pt_edges]
    exact getD_append_left _ _ _ _ he

/-- The edge created by the `j`-th road-section row, expressed through the
registry state reached after the first `j` rows of the phase. -/
theorem runRoadSections_edges_getD (rows : List RoadSectionRow) (st : ImportState) (i n j : Nat)
    (hj : j < rows.length) :
    (runRoadSections st rows i n).road_graph.edges.getD
        (st.road_graph.edges.length + j) dfltRoadEdge
      = ⟨(mapGetOrInsert (runRoadSections st (rows.take j) i n).road_nodes_map
            (rows.getD j dfltRoadSectionRow).node_from).1,
         (mapGetOrInsert
            (mapGetOrInsert (runRoadSections st (rows.take j) i n).road_nodes_map
              (rows.getD j dfltRoadSectionRow).node_from).2
            (rows.getD j dfltRoadSectionRow).node_to).1,
         mkRoadSectionProp (rows.getD j dfltRoadSectionRow)
           (st.road_graph.edges.length + j)⟩ := by
  induction rows generalizing st i j with
  | nil => simp at hj
  | cons r rest ih =>
    cases j with
    | zero =>
      simp only [List.take_zero, List.getD_cons_zero, Nat.add_zero, runRoadSections]
      rw [runRoadSections_edges_stable rest (importRoadSection st r i n) (i + 1) n
            st.road_graph.edges.length (by simp) dfltRoadEdge]
      simp only [importRoadSection_road_edges]
      exact getD_append_length _ _ _ _
    | succ k =>
      have hk : k < rest.length := by simpa using hj
      simp only [List.take_succ_cons, List.getD_cons_succ, runRoadSections]
      rw [show st.road_graph.edges.length + (k + 1)
            = (importRoadSection st r i n).road_graph.edges.length + k by
          simp only [importRoadSection_road_edges, List.length_append, List.length_cons,
            List.length_nil]
          omega]
      exact ih (importRoadSection st r i n) (i + 1) k hk

/-- The stop created by the `j`-th stop row, expressed through the registry
state reached after the first `j` rows of the phase. -/
theorem runStops_stops_getD (rows : List StopRow) (st : ImportState) (i n j : Nat)
    (hj : j < rows.length) :
    (runStops st rows i n).pt_graph.stops.getD (st.pt_graph.stops.length + j) dfltStop
      = mkStop (rows.getD j dfltStopRow)
          (mapFind? (runStops st (rows.take j) i n).pt_nodes_map
            (rows.getD j dfltStopRow).parent_station)
          ((mapGetOrInsert (runStops st (rows.take j) i n).road_sections_map
            (rows.getD j dfltStopRow).road_section_id).1)
          (st.pt_graph.stops.length + j) := by
  induction rows generalizing st i j with
  | nil => simp at hj
  | cons r rest ih =>
    cases j with
    | zero =>
      simp only [List.take_zero, List.getD_cons_zero, Nat.add_zero, runStops]
      rw [runStops_stops_stable rest (importStop st r i n) (i + 1) n
            st.pt_graph.stops.length (by simp) dfltStop]
      simp only [importStop_pt_stops]
      exact getD_append_length _ _ _ _
    | succ k =>
      have hk : k < rest.length := by simpa using hj
      simp only [List.take_succ_cons, List.getD_cons_succ, runStops]
      rw [show st.pt_graph.stops.length + (k + 1)
            = (importStop st r i n).pt_graph.stops.length + k by
          simp only [importStop_pt_stops, List.length_append, List.length_cons,
            List.length_nil]
          omega]
      exact ih (importStop st r i n) (i + 1) k hk

/-- The PT edge created by the `j`-th PT-section row. -/
theorem runPtSections_edges_getD (rows : List PtSectionRow) (st : ImportState) (i n j : Nat)
    (hj : j < rows.length) :
    (runPtSections st rows i n).pt_graph.edges.getD (st.pt_graph.edges.length + j) dfltPTEdge
      = ⟨(mapGetOrInsert (runPtSections st (rows.take j) i n).pt_nodes_map
            (rows.getD j dfltPtSectionRow).stop_from).1,
         (mapGetOrInsert
            (mapGetOrInsert (runPtSections st (rows.take j) i n).pt_nodes_map
              (rows.getD j dfltPtSectionRow).stop_from).2
            (rows.getD j dfltPtSectionRow).stop_to).1,
         st.pt_graph.edges.length + j⟩ := by
  induction rows generalizing st i j with
  | nil => simp at hj
  | cons r rest ih =>
    cases j with
    | zero =>
      simp only [List.take_zero, List.getD_cons_zero, Nat.add_zero, runPtSections]
      rw [runPtSections_edges_stable rest (importPtSection st r i n) (i + 1) n
            st.pt_graph.edges.length (by simp) dfltPTEdge]
      simp only [importPtSection_pt_edges]
      exact getD_append_length _ _ _ _
    | succ k =>
      have hk : k < rest.length := by simpa using hj
      simp only [List.take_succ_cons, List.getD_cons_succ, runPtSections]
      rw [show st.pt_graph.edges.length + (k + 1)
            = (importPtSection st r i n).pt_graph.edges.length + k by
          simp only [importPtSection_pt_edges, List.length_append, List.length_cons,
            List.length_nil]
          omega]
      exact ih (importPtSection st r i n) (i + 1) k hk

/-! ### Registry evolution across phases -/

theorem runRoadNodes_map_outside (rows : List RoadNodeRow) (st : ImportState) (i n k : Nat)
    (hk : k ∉ rows.map RoadNodeRow.id) :
    mapFind? (runRoadNodes st rows i n).road_nodes_map k = mapFind? st.road_nodes_map k := by
  induction rows generalizing st i with
  | nil => simp [runRoadNodes]
  | cons r rest ih =>
    simp only [List.map_cons, List.mem_cons, not_or] at hk
    rw [runRoadNodes, ih (importRoadNode st r i n) (i + 1) hk.2]
    have hne : r.id ≠ k := fun h => hk.1 h.symm
    simp [mapFind?_insert, hne]

theorem runRoadNodes_map_isSome (rows : List RoadNodeRow) (st : ImportState) (i n k : Nat) :
    (mapFind? (runRoadNodes st rows i n).road_nodes_map k).isSome
      ↔ (mapFind? st.road_nodes_map k).isSome ∨ k ∈ rows.map RoadNodeRow.id := by
  induction rows generalizing st i with
  | nil => simp [runRoadNodes]
  | cons r rest ih =>
    rw [runRoadNodes, ih]
    simp only [importRoadNode_road_nodes_map, List.map_cons, List.mem_cons]
    rw [mapFind?_insert]
    by_cases h : r.id = k
    · simp [h]
    · have h' : ¬ k = r.id := fun hh => h hh.symm
      simp [h, h']

/-- Invariant: every road-node registry entry points at a vertex inside the
graph whose stored node carries the registered external id. -/
def RoadRegistryOK (st : ImportState) : Prop :=
  ∀ k v, mapFind? st.road_nodes_map k = some v →
    v < st.road_graph.nodes.length ∧ (st.road_graph.nodes.getD v dfltRoadNode).db_id = k

theorem importRoadNode_registry (st : ImportState) (r : RoadNodeRow) (i n : Nat)
    (h : RoadRegistryOK st) : RoadRegistryOK (importRoadNode st r i n) := by
  intro k v hkv
  simp only [importRoadNode_road_nodes_map] at hkv
  rw [mapFind?_insert] at hkv
  simp only [importRoadNode_road_nodes, List.length_append, List.length_cons, List.length_nil]
  by_cases hid : r.id = k
  · rw [if_pos hid] at hkv
    have hv := Option.some_inj.mp hkv
    subst hv
    refine ⟨by omega, ?_⟩
    rw [getD_append_length]
    exact hid
  · rw [if_neg hid] at hkv
    obtain ⟨h1, h2⟩ := h k v hkv
    exact ⟨by omega, by rw [getD_append_left _ _ _ _ h1]; exact h2⟩

theorem runRoadNodes_registry (rows : List RoadNodeRow) (st : ImportState) (i n : Nat)
    (h : RoadRegistryOK st) : RoadRegistryOK (runRoadNodes st rows i n) := by
  induction rows generalizing st i with
  | nil => simpa [runRoadNodes]
  | cons r rest ih =>
    rw [runRoadNodes]
    exact ih (importRoadNode st r i n) (i + 1) (importRoadNode_registry st r i n h)

/-- Every key outside `S` is either unregistered or registered with the
value-initialized handle `0` (the effect of `operator[]` default-inserts). -/
def regDefaultOK (S : List Nat) (m : IdMap) : Prop :=
  ∀ k, k ∉ S → mapFind? m k = none ∨ mapFind? m k = some 0

theorem regDefaultOK_getOrInsert (S : List Nat) (m : IdMap) (k₀ : Nat)
    (h : regDefaultOK S m) : regDefaultOK S (mapGetOrInsert m k₀).2 := by
  intro k hk
  rw [mapFind?_getOrInsert]
  by_cases hkk : k₀ = k
  · right
    rw [if_pos hkk]
    subst hkk
    rcases h k₀ hk with hm | hm
    · rw [mapGetOrInsert_absent m k₀ hm]
    · rw [mapGetOrInsert_found m k₀ 0 hm]
  · rw [if_neg hkk]
    exact h k hk

theorem mapGetOrInsert_fst_default (S : List Nat) (m : IdMap) (k : Nat)
    (h : regDefaultOK S m) (hk : k ∉ S) : (mapGetOrInsert m k).1 = 0 := by
  rcases h k hk with hm | hm
  · rw [mapGetOrInsert_absent m k hm]
  · rw [mapGetOrInsert_found m k 0 hm]

theorem runRoadSections_nodes_map_defaultOK (S : List Nat) (rows : List RoadSectionRow)
    (st : ImportState) (i n : Nat) (h : regDefaultOK S st.road_nodes_map) :
    regDefaultOK S (runRoadSections st rows i n).road_nodes_map := by
  induction rows generalizing st i with
  | nil => simpa [runRoadSections]
  | cons r rest ih =>
    rw [runRoadSections]
    refine ih (importRoadSection st r i n) (i + 1) ?_
    simp only [importRoadSection_road_nodes_map]
    exact regDefaultOK_getOrInsert S _ _ (regDefaultOK_getOrInsert S _ _ h)

theorem runRoadSections_map_resolved (rows : List RoadSectionRow) (st : ImportState) (i n : Nat)
    (h : ∀ r ∈ rows, (mapFind? st.road_nodes_map r.node_from).isSome
        ∧ (mapFind? st.road_nodes_map r.node_to).isSome) :
    (runRoadSections st rows i n).road_nodes_map = st.road_nodes_map := by
  induction rows generalizing st i with
  | nil => simp [runRoadSections]
  | cons r rest ih =>
    obtain ⟨hf, ht⟩ := h r (List.mem_cons_self r rest)
    obtain ⟨vf, hvf⟩ := Option.isSome_iff_exists.mp hf
    obtain ⟨vt, hvt⟩ := Option.isSome_iff_exists.mp ht
    have hmap : (importRoadSection st r i n).road_nodes_map = st.road_nodes_map := by
      simp only [importRoadSection_road_nodes_map]
      rw [mapGetOrInsert_found _ _ _ hvf, mapGetOrInsert_found _ _ _ hvt]
    have hprem : ∀ r' ∈ rest, (mapFind? (importRoadSection st r i n).road_nodes_map r'.node_from).isSome
        ∧ (mapFind? (importRoadSection st r i n).road_nodes_map r'.node_to).isSome := by
      intro r' hr'
      rw [hmap]
      exact h r' (List.mem_cons_of_mem r hr')
    rw [runRoadSections, ih (importRoadSection st r i n) (i + 1) hprem, hmap]

theorem runRoadSections_sections_map_outside (rows : List RoadSectionRow) (st : ImportState)
    (i n k : Nat) (hk : k ∉ rows.map RoadSectionRow.id) :
    mapFind? (runRoadSections st rows i n).road_sections_map k
      = mapFind? st.road_sections_map k := by
  induction rows generalizing st i with
  | nil => simp [runRoadSections]
  | cons r rest ih =>
    simp only [List.map_cons, List.mem_cons, not_or] at hk
    rw [runRoadSections, ih (importRoadSection st r i n) (i + 1) hk.2]
    have hne : r.id ≠ k := fun h => hk.1 h.symm
    simp [mapFind?_insert, hne]

theorem runStops_pt_map_isSome (rows : List StopRow) (st : ImportState) (i n k : Nat) :
    (mapFind? (runStops st rows i n).pt_nodes_map k).isSome
      ↔ (mapFind? st.pt_nodes_map k).isSome ∨ k ∈ rows.map StopRow.id := by
  induction rows generalizing st i with
  | nil => simp [runStops]
  | cons r rest ih =>
    rw [runStops, ih]
    simp only [importStop_pt_nodes_map, List.map_cons, List.mem_cons]
    rw [mapFind?_insert]
    by_cases h : r.id = k
    · simp [h]
    · have h' : ¬ k = r.id := fun hh => h hh.symm
      simp [h, h']

/-- Invariant: every stop-registry entry points at a stop inside the PT graph
carrying the registered external id. -/
def PTRegistryOK (st : ImportState) : Prop :=
  ∀ k v, mapFind? st.pt_nodes_map k = some v →
    v < st.pt_graph.stops.length ∧ (st.pt_graph.stops.getD v dfltStop).db_id = k

theorem importStop_registry (st : ImportState) (r : StopRow) (i n : Nat)
    (h : PTRegistryOK st) : PTRegistryOK (importStop st r i n) := by
  intro k v hkv
  simp only [importStop_pt_nodes_map] at hkv
  rw [mapFind?_insert] at hkv
  simp only [importStop_pt_stops, List.length_append, List.length_cons, List.length_nil]
  by_cases hid : r.id = k
  · rw [if_pos hid] at hkv
    have hv := Option.some_inj.mp hkv
    subst hv
    refine ⟨by omega, ?_⟩
    rw [getD_append_length]
    exact hid
  · rw [if_neg hid] at hkv
    obtain ⟨h1, h2⟩ := h k v hkv
    exact ⟨by omega, by rw [getD_append_left _ _ _ _ h1]; exact h2⟩

theorem runStops_registry (rows : List StopRow) (st : ImportState) (i n : Nat)
    (h : PTRegistryOK st) : PTRegistryOK (runStops st rows i n) := by
  induction rows generalizing st i with
  | nil => simpa [runStops]
  | cons r rest ih =>
    rw [runStops]
    exact ih (importStop st r i n) (i + 1) (importStop_registry st r i n h)

theorem runStops_sections_map_defaultOK (S : List Nat) (rows : List StopRow)
    (st : ImportState) (i n : Nat) (h : regDefaultOK S st.road_sections_map) :
    regDefaultOK S (runStops st rows i n).road_sections_map := by
  induction rows generalizing st i with
  | nil => simpa [runStops]
  | cons r rest ih =>
    rw [runStops]
    refine ih (importStop st r i n) (i + 1) ?_
    simp only [importStop_road_sections_map]
    exact regDefaultOK_getOrInsert S _ _ h

theorem getD_append_right {α : Type} (l l' : List α) (i : Nat) (d : α) (h : l.length ≤ i) :
    (l ++ l').getD i d = l'.getD (i - l.length) d := by
  induction l generalizing i with
  | nil => simp
  | cons x t ih =>
    cases i with
    | zero => simp at h
    | succ n =>
      simp only [List.cons_append, List.getD_cons_succ, List.length_cons]
      rw [ih n (by simpa using h)]
      congr 1
      omega

theorem getD_take {α : Type} (l : List α) (j v : Nat) (d : α) (h : v < j) :
    (l.take j).getD v d = l.getD v d := by
  induction l generalizing j v with
  | nil => simp
  | cons x t ih =>
    cases j with
    | zero => omega
    | succ m =>
      cases v with
      | zero => simp
      | succ w => simpa using ih m w (by omega)

/-! ### The pipeline staged -/

/-- The importer state on entry (fresh PT graph, empty registries). -/
def stage0 (g : MultimodalGraph) : ImportState :=
  ⟨g.road, emptyPTGraph, [], [], [], []⟩

/-- State after the road-node phase. -/
def stage1 (g : MultimodalGraph) (rn : List RoadNodeRow) : ImportState :=
  runRoadNodes (stage0 g) rn 0 rn.length

/-- State after the road-section phase. -/
def stage2 (g : MultimodalGraph) (rn : List RoadNodeRow) (rs : List RoadSectionRow) :
    ImportState :=
  runRoadSections (stage1 g rn) rs 0 rs.length

/-- State after the stop phase. -/
def stage3 (g : MultimodalGraph) (rn : List RoadNodeRow) (rs : List RoadSectionRow)
    (sr : List StopRow) : ImportState :=
  runStops (stage2 g rn rs) sr 0 sr.length

/-- State after the PT-section phase. -/
def stage4 (g : MultimodalGraph) (rn : List RoadNodeRow) (rs : List RoadSectionRow)
    (sr : List StopRow) (ps : List PtSectionRow) : ImportState :=
  runPtSections (stage3 g rn rs sr) ps 0 ps.length

theorem import_graph_eq (g : MultimodalGraph) (rn : List RoadNodeRow)
    (rs : List RoadSectionRow) (sr : List StopRow) (ps : List PtSectionRow) :
    import_graph g rn rs sr ps
      = ({ road := (stage4 g rn rs sr ps).road_graph,
           public_transports := g.public_transports ++ [(stage4 g rn rs sr ps).pt_graph] },
         (stage4 g rn rs sr ps).calls ++ [(1, true)]) := rfl

theorem import_graph_road (g : MultimodalGraph) (rn : List RoadNodeRow)
    (rs : List RoadSectionRow) (sr : List StopRow) (ps : List PtSectionRow) :
    (import_graph g rn rs sr ps).1.road = (stage2 g rn rs).road_graph := by
  rw [import_graph_eq]
  show (stage4 g rn rs sr ps).road_graph = (stage2 g rn rs).road_graph
  rw [stage4, (runPtSections_frame (stage3 g rn rs sr) ps 0 ps.length).1,
      stage3, (runStops_frame (stage2 g rn rs) sr 0 sr.length).1]

theorem import_graph_lastPT (g : MultimodalGraph) (rn : List RoadNodeRow)
    (rs : List RoadSectionRow) (sr : List StopRow) (ps : List PtSectionRow) :
    ((import_graph g rn rs sr ps).1.public_transports).getLastD emptyPTGraph
      = (stage4 g rn rs sr ps).pt_graph := by
  rw [import_graph_eq]
  exact List.getLastD_concat _ _ _

theorem stage4_stops (g : MultimodalGraph) (rn : List RoadNodeRow)
    (rs : List RoadSectionRow) (sr : List StopRow) (ps : List PtSectionRow) :
    (stage4 g rn rs sr ps).pt_graph.stops = (stage3 g rn rs sr).pt_graph.stops :=
  (runPtSections_frame (stage3 g rn rs sr) ps 0 ps.length).2.2.2

theorem stage2_pt_graph (g : MultimodalGraph) (rn : List RoadNodeRow)
    (rs : List RoadSectionRow) : (stage2 g rn rs).pt_graph = emptyPTGraph := by
  rw [stage2, (runRoadSections_frame (stage1 g rn) rs 0 rs.length).1,
      stage1, (runRoadNodes_frame (stage0 g) rn 0 rn.length).1]
  rfl

theorem stage2_pt_map (g : MultimodalGraph) (rn : List RoadNodeRow)
    (rs : List RoadSectionRow) : (stage2 g rn rs).pt_nodes_map = [] := by
  rw [stage2, (runRoadSections_frame (stage1 g rn) rs 0 rs.length).2.1,
      stage1, (runRoadNodes_frame (stage0 g) rn 0 rn.length).2.1]
  rfl

theorem stage1_sections_map (g : MultimodalGraph) (rn : List RoadNodeRow) :
    (stage1 g rn).road_sections_map = [] :=
  (runRoadNodes_frame (stage0 g) rn 0 rn.length).2.2.1

theorem stage1_nodes (g : MultimodalGraph) (rn : List RoadNodeRow) :
    (stage1 g rn).road_graph.nodes
      = g.road.nodes ++ builtRoadNodes g.road.nodes.length rn :=
  runRoadNodes_nodes rn (stage0 g) 0 rn.length

theorem stage1_edges (g : MultimodalGraph) (rn : List RoadNodeRow) :
    (stage1 g rn).road_graph.edges = g.road.edges :=
  (runRoadNodes_frame (stage0 g) rn 0 rn.length).2.2.2

theorem stage2_nodes (g : MultimodalGraph) (rn : List RoadNodeRow) (rs : List RoadSectionRow) :
    (stage2 g rn rs).road_graph.nodes
      = g.road.nodes ++ builtRoadNodes g.road.nodes.length rn := by
  rw [stage2, (runRoadSections_frame (stage1 g rn) rs 0 rs.length).2.2]
  exact stage1_nodes g rn

theorem stage2_edges_length (g : MultimodalGraph) (rn : List RoadNodeRow)
    (rs : List RoadSectionRow) :
    (stage2 g rn rs).road_graph.edges.length = g.road.edges.length + rs.length := by
  rw [stage2, runRoadSections_edges_length, stage1_edges]

theorem stage1_map_isSome (g : MultimodalGraph) (rn : List RoadNodeRow) (k : Nat) :
    (mapFind? (stage1 g rn).road_nodes_map k).isSome ↔ k ∈ rn.map RoadNodeRow.id := by
  rw [stage1, runRoadNodes_map_isSome]
  show (mapFind? ([] : IdMap) k).isSome ∨ _ ↔ _
  simp

theorem stage1_map_outside (g : MultimodalGraph) (rn : List RoadNodeRow) (k : Nat)
    (hk : k ∉ rn.map RoadNodeRow.id) :
    mapFind? (stage1 g rn).road_nodes_map k = none := by
  rw [stage1, runRoadNodes_map_outside rn (stage0 g) 0 rn.length k hk]
  rfl

theorem stage1_registry (g : MultimodalGraph) (rn : List RoadNodeRow) :
    RoadRegistryOK (stage1 g rn) := by
  refine runRoadNodes_registry rn (stage0 g) 0 rn.length ?_
  intro k v hkv
  simp [stage0] at hkv

theorem stage3_stops_length (g : MultimodalGraph) (rn : List RoadNodeRow)
    (rs : List RoadSectionRow) (sr : List StopRow) :
    (stage3 g rn rs sr).pt_graph.stops.length = sr.length := by
  rw [stage3, runStops_stops_length, stage2_pt_graph]
  simp [emptyPTGraph]

theorem stage3_pt_edges (g : MultimodalGraph) (rn : List RoadNodeRow)
    (rs : List RoadSectionRow) (sr : List StopRow) :
    (stage3 g rn rs sr).pt_graph.edges = [] := by
  rw [stage3, runStops_pt_edges, stage2_pt_graph]
  rfl

/-- C9: each call to `import_graph` appends exactly one new PT graph to
`graph.public_transports` — the entries present before the call are untouched,
and with empty stop and PT-section streams the appended graph is the empty PT
graph. -/
theorem c9_appends_one_pt_graph (g : MultimodalGraph) (rn : List RoadNodeRow)
    (rs : List RoadSectionRow) (sr : List StopRow) (ps : List PtSectionRow) :
    (import_graph g rn rs sr ps).1.public_transports.length
        = g.public_transports.length + 1
    ∧ ((import_graph g rn rs sr ps).1.public_transports).take g.public_transports.length
        = g.public_transports
    ∧ (sr = [] → ps = [] →
        ((import_graph g rn rs sr ps).1.public_transports).getLastD emptyPTGraph
          = emptyPTGraph) := by
  refine ⟨?_, ?_, ?_⟩
  · rw [import_graph_eq]
    simp
  · rw [import_graph_eq]
    exact List.take_left g.public_transports _
  · intro hsr hps
    subst hsr
    subst hps
    rw [import_graph_lastPT]
    exact stage2_pt_graph g rn rs

/-- Witness for C9 at a concrete import (all streams empty). -/
theorem c9_appends_witness :
    (import_graph emptyMultimodalGraph [] [] [] []).1.public_transports.length
        = emptyMultimodalGraph.public_transports.length + 1
    ∧ ((import_graph emptyMultimodalGraph [] [] [] []).1.public_transports).getLastD
        emptyPTGraph = emptyPTGraph :=
  ⟨(c9_appends_one_pt_graph emptyMultimodalGraph [] [] [] []).1,
   (c9_appends_one_pt_graph emptyMultimodalGraph [] [] [] []).2.2 rfl rfl⟩

/-- C10: every vertex and edge added by the import stores its own handle in its
bundled property: added road vertices satisfy `graph[v].vertex = v`, added road
edges `graph[e].edge = e`, and likewise every stop and edge of the appended PT
graph. -/
theorem c10_self_handles (g : MultimodalGraph) (rn : List RoadNodeRow)
    (rs : List RoadSectionRow) (sr : List StopRow) (ps : List PtSectionRow) :
    (∀ v, g.road.nodes.length ≤ v → v < (import_graph g rn rs sr ps).1.road.nodes.length →
        (((import_graph g rn rs sr ps).1.road.nodes).getD v dfltRoadNode).vertex = v)
    ∧ (∀ e, g.road.edges.length ≤ e → e < (import_graph g rn rs sr ps).1.road.edges.length →
        ((((import_graph g rn rs sr ps).1.road.edges).getD e dfltRoadEdge).property).edge = e)
    ∧ (∀ v, v < (((import_graph g rn rs sr ps).1.public_transports).getLastD
          emptyPTGraph).stops.length →
        ((((import_graph g rn rs sr ps).1.public_transports).getLastD
          emptyPTGraph).stops.getD v dfltStop).vertex = v)
    ∧ (∀ e, e < (((import_graph g rn rs sr ps).1.public_transports).getLastD
          emptyPTGraph).edges.length →
        ((((import_graph g rn rs sr ps).1.public_transports).getLastD
          emptyPTGraph).edges.getD e dfltPTEdge).edge = e) := by
  refine ⟨?_, ?_, ?_, ?_⟩
  · intro v hv1 hv2
    rw [import_graph_road, stage2_nodes] at hv2 ⊢
    have hlen : v - g.road.nodes.length < rn.length := by
      simp only [List.length_append, builtRoadNodes_length] at hv2
      omega
    rw [getD_append_right _ _ _ _ hv1, builtRoadNodes_getD _ _ _ hlen]
    show g.road.nodes.length + (v - g.road.nodes.length) = v
    omega
  · intro e he1 he2
    rw [import_graph_road] at he2 ⊢
    have hj : e - g.road.edges.length < rs.length := by
      rw [stage2_edges_length] at he2
      omega
    have hh := runRoadSections_edges_getD rs (stage1 g rn) 0 rs.length
      (e - g.road.edges.length) hj
    rw [stage1_edges] at hh
    rw [show g.road.edges.length + (e - g.road.edges.length) = e by omega] at hh
    show (((stage2 g rn rs).road_graph.edges).getD e dfltRoadEdge).property.edge = e
    rw [stage2, hh]
    rfl
  · intro v hv
    rw [import_graph_lastPT, stage4_stops] at hv ⊢
    rw [stage3_stops_length] at hv
    have hh := runStops_stops_getD sr (stage2 g rn rs) 0 sr.length v hv
    rw [stage2_pt_graph] at hh
    simp only [emptyPTGraph, List.length_nil, Nat.zero_add] at hh
    show ((stage3 g rn rs sr).pt_graph.stops.getD v dfltStop).vertex = v
    rw [stage3, hh]
    rfl
  · intro e he
    rw [import_graph_lastPT] at he ⊢
    have hlen : (stage4 g rn rs sr ps).pt_graph.edges.length = ps.length := by
      rw [stage4, runPtSections_edges_length, stage3_pt_edges]
      simp
    rw [hlen] at he
    have hh := runPtSections_edges_getD ps (stage3 g rn rs sr) 0 ps.length e he
    rw [stage3_pt_edges] at hh
    simp only [List.length_nil, Nat.zero_add] at hh
    show ((stage4 g rn rs sr ps).pt_graph.edges.getD e dfltPTEdge).edge = e
    rw [stage4, hh]

/-- Witness for C10 at a concrete import (one node, one section, one stop, one
PT section). -/
theorem c10_self_handles_witness :
    (((import_graph emptyMultimodalGraph [⟨1, false, false⟩]
        [⟨10, none, 1, 1, 0, 0, 0, 0, 0, 0, "", "", "", 0, false, false, false, false, false⟩]
        [⟨100, "", false, 0, 10, 0, 0⟩] [⟨100, 100⟩]).1.road.nodes).getD 0
          dfltRoadNode).vertex = 0
    ∧ ((((import_graph emptyMultimodalGraph [⟨1, false, false⟩]
        [⟨10, none, 1, 1, 0, 0, 0, 0, 0, 0, "", "", "", 0, false, false, false, false, false⟩]
        [⟨100, "", false, 0, 10, 0, 0⟩] [⟨100, 100⟩]).1.public_transports).getLastD
          emptyPTGraph).stops.getD 0 dfltStop).vertex = 0 :=
  ⟨(c10_self_handles emptyMultimodalGraph [⟨1, false, false⟩]
      [⟨10, none, 1, 1, 0, 0, 0, 0, 0, 0, "", "", "", 0, false, false, false, false, false⟩]
      [⟨100, "", false, 0, 10, 0, 0⟩] [⟨100, 100⟩]).1 0 (Nat.le_refl 0) (by decide),
   (c10_self_handles emptyMultimodalGraph [⟨1, false, false⟩]
      [⟨10, none, 1, 1, 0, 0, 0, 0, 0, 0, "", "", "", 0, false, false, false, false, false⟩]
      [⟨100, "", false, 0, 10, 0, 0⟩] [⟨100, 100⟩]).2.2.1 0 (by decide)⟩

/-- C1 counterexample: road node stream `[id 1]`, road section `id 10` with
`node_from = 999` (no road node 999 imported).  Contrary to the claim, the
pipeline does not fail and the edge IS added: the road graph ends with exactly
one edge, whose from-endpoint silently became the value-initialized handle `0`
— the vertex of the unrelated node with external id 1. -/
theorem c1_unresolved_reference_counterexample :
    (import_graph emptyMultimodalGraph [⟨1, false, false⟩]
        [⟨10, none, 999, 1, 0, 0, 0, 0, 0, 0, "", "", "", 0, false, false, false, false, false⟩]
        [] []).1.road.edges.length = 1
    ∧ ((import_graph emptyMultimodalGraph [⟨1, false, false⟩]
        [⟨10, none, 999, 1, 0, 0, 0, 0, 0, 0, "", "", "", 0, false, false, false, false, false⟩]
        [] []).1.road.edges.getD 0 dfltRoadEdge).source = 0
    ∧ ((import_graph emptyMultimodalGraph [⟨1, false, false⟩]
        [⟨10, none, 999, 1, 0, 0, 0, 0, 0, 0, "", "", "", 0, false, false, false, false, false⟩]
        [] []).1.road.nodes.getD 0 dfltRoadNode).db_id = 1 := ⟨rfl, rfl, rfl⟩

/-- C1 amended: an unresolvable reference never makes the import fail — every
road-section row still adds exactly one edge, with an unresolvable endpoint
silently mapped to the value-initialized handle `0`, and every stop row still
adds its vertex, with an unresolvable road-section reference likewise mapped
to handle `0`. -/
theorem c1_unresolved_reference_defaults (g : MultimodalGraph) (rn : List RoadNodeRow)
    (rs : List RoadSectionRow) (sr : List StopRow) (ps : List PtSectionRow) :
    (import_graph g rn rs sr ps).1.road.edges.length = g.road.edges.length + rs.length
    ∧ (∀ j, j < rs.length →
        ((rs.getD j dfltRoadSectionRow).node_from ∉ rn.map RoadNodeRow.id →
          (((import_graph g rn rs sr ps).1.road.edges).getD
            (g.road.edges.length + j) dfltRoadEdge).source = 0)
        ∧ ((rs.getD j dfltRoadSectionRow).node_to ∉ rn.map RoadNodeRow.id →
          (((import_graph g rn rs sr ps).1.road.edges).getD
            (g.road.edges.length + j) dfltRoadEdge).target = 0))
    ∧ (((import_graph g rn rs sr ps).1.public_transports).getLastD
          emptyPTGraph).stops.length = sr.length
    ∧ (∀ j, j < sr.length →
        (sr.getD j dfltStopRow).road_section_id ∉ rs.map RoadSectionRow.id →
        ((((import_graph g rn rs sr ps).1.public_transports).getLastD
          emptyPTGraph).stops.getD j dfltStop).road_section = 0) := by
  have hdefault : regDefaultOK (rn.map RoadNodeRow.id) (stage1 g rn).road_nodes_map := by
    intro k hk
    exact Or.inl (stage1_map_outside g rn k hk)
  refine ⟨?_, ?_, ?_, ?_⟩
  · rw [import_graph_road]
    exact stage2_edges_length g rn rs
  · intro j hj
    have hh := runRoadSections_edges_getD rs (stage1 g rn) 0 rs.length j hj
    rw [stage1_edges] at hh
    have hdef2 : regDefaultOK (rn.map RoadNodeRow.id)
        (runRoadSections (stage1 g rn) (rs.take j) 0 rs.length).road_nodes_map :=
      runRoadSections_nodes_map_defaultOK _ _ _ _ _ hdefault
    constructor
    · intro hnf
      rw [import_graph_road]
      show (((stage2 g rn rs).road_graph.edges).getD (g.road.edges.length + j)
        dfltRoadEdge).source = 0
      rw [stage2, hh]
      exact mapGetOrInsert_fst_default _ _ _ hdef2 hnf
    · intro hnt
      rw [import_graph_road]
      show (((stage2 g rn rs).road_graph.edges).getD (g.road.edges.length + j)
        dfltRoadEdge).target = 0
      rw [stage2, hh]
      exact mapGetOrInsert_fst_default _ _ _
        (regDefaultOK_getOrInsert _ _ _ hdef2) hnt
  · rw [import_graph_lastPT, stage4_stops]
    exact stage3_stops_length g rn rs sr
  · intro j hj hrs
    have hh := runStops_stops_getD sr (stage2 g rn rs) 0 sr.length j hj
    rw [stage2_pt_graph] at hh
    simp only [emptyPTGraph, List.length_nil, Nat.zero_add] at hh
    have hsec1 : regDefaultOK (rs.map RoadSectionRow.id) (stage2 g rn rs).road_sections_map := by
      intro k hk
      left
      rw [stage2, runRoadSections_sections_map_outside rs (stage1 g rn) 0 rs.length k hk,
          stage1_sections_map]
      rfl
    have hsec2 : regDefaultOK (rs.map RoadSectionRow.id)
        (runStops (stage2 g rn rs) (sr.take j) 0 sr.length).road_sections_map :=
      runStops_sections_map_defaultOK _ _ _ _ _ hsec1
    rw [import_graph_lastPT, stage4_stops]
    show ((stage3 g rn rs sr).pt_graph.stops.getD j dfltStop).road_section = 0
    rw [stage3, hh]
    show (mapGetOrInsert (runStops (stage2 g rn rs) (sr.take j) 0 sr.length).road_sections_map
      (sr.getD j dfltStopRow).road_section_id).1 = 0
    exact mapGetOrInsert_fst_default _ _ _ hsec2 hrs

/-- Witness for the amended C1 at the counterexample input. -/
theorem c1_unresolved_reference_witness :
    ((import_graph emptyMultimodalGraph [⟨1, false, false⟩]
        [⟨10, none, 999, 1, 0, 0, 0, 0, 0, 0, "", "", "", 0, false, false, false, false, false⟩]
        [] []).1.road.edges.getD 0 dfltRoadEdge).source = 0 :=
  ((c1_unresolved_reference_defaults emptyMultimodalGraph [⟨1, false, false⟩]
      [⟨10, none, 999, 1, 0, 0, 0, 0, 0, 0, "", "", "", 0, false, false, false, false, false⟩]
      [] []).2.1 0 (by decide)).1 (by decide)

/-- C4 counterexample: two identical road-node records (both external id 1,
hence one distinct record) and no sections — the premise on section endpoints
holds vacuously — yet the road graph receives two vertices, not one: the
importer adds one vertex per row without any duplicate check. -/
theorem c4_distinct_records_counterexample :
    ([(⟨1, false, false⟩ : RoadNodeRow), ⟨1, false, false⟩].dedup.length = 1)
    ∧ (import_graph emptyMultimodalGraph [⟨1, false, false⟩, ⟨1, false, false⟩]
        [] [] []).1.road.nodes.length = 2 := by
  constructor
  · decide
  · rfl

/-- C4 amended: when every section's endpoints are ids of imported road nodes,
the road graph gains exactly one vertex per road-node RECORD (duplicated ids
each add a vertex) and exactly one edge per section record, and each edge's
endpoint handles resolve back to nodes carrying the section's `node_from` and
`node_to` external ids (the edge also carries the section's own id). -/
theorem c4_graph_counts_and_resolution (g : MultimodalGraph) (rn : List RoadNodeRow)
    (rs : List RoadSectionRow) (sr : List StopRow) (ps : List PtSectionRow)
    (hres : ∀ r ∈ rs, r.node_from ∈ rn.map RoadNodeRow.id
        ∧ r.node_to ∈ rn.map RoadNodeRow.id) :
    (import_graph g rn rs sr ps).1.road.nodes.length = g.road.nodes.length + rn.length
    ∧ (import_graph g rn rs sr ps).1.road.edges.length = g.road.edges.length + rs.length
    ∧ ∀ j, j < rs.length →
        ((import_graph g rn rs sr ps).1.road.nodes.getD
            ((import_graph g rn rs sr ps).1.road.edges.getD
              (g.road.edges.length + j) dfltRoadEdge).source dfltRoadNode).db_id
          = (rs.getD j dfltRoadSectionRow).node_from
        ∧ ((import_graph g rn rs sr ps).1.road.nodes.getD
            ((import_graph g rn rs sr ps).1.road.edges.getD
              (g.road.edges.length + j) dfltRoadEdge).target dfltRoadNode).db_id
          = (rs.getD j dfltRoadSectionRow).node_to
        ∧ ((import_graph g rn rs sr ps).1.road.edges.getD
            (g.road.edges.length + j) dfltRoadEdge).property.db_id
          = (rs.getD j dfltRoadSectionRow).id := by
  have hsome : ∀ r ∈ rs, (mapFind? (stage1 g rn).road_nodes_map r.node_from).isSome
      ∧ (mapFind? (stage1 g rn).road_nodes_map r.node_to).isSome := by
    intro r hr
    exact ⟨(stage1_map_isSome g rn _).mpr (hres r hr).1,
           (stage1_map_isSome g rn _).mpr (hres r hr).2⟩
  refine ⟨?_, ?_, ?_⟩
  · rw [import_graph_road, stage2_nodes]
    simp
  · rw [import_graph_road]
    exact stage2_edges_length g rn rs
  · intro j hj
    have hrow : rs.getD j dfltRoadSectionRow ∈ rs := by
      rw [List.getD_eq_getElem rs dfltRoadSectionRow hj]
      exact List.getElem_mem hj
    have hmapj : (runRoadSections (stage1 g rn) (rs.take j) 0 rs.length).road_nodes_map
        = (stage1 g rn).road_nodes_map :=
      runRoadSections_map_resolved _ _ _ _ (fun r hr => hsome r (List.take_subset j rs hr))
    have hh := runRoadSections_edges_getD rs (stage1 g rn) 0 rs.length j hj
    rw [stage1_edges, hmapj] at hh
    obtain ⟨hfS, htS⟩ := hsome _ hrow
    obtain ⟨vf, hvf⟩ := Option.isSome_iff_exists.mp hfS
    obtain ⟨vt, hvt⟩ := Option.isSome_iff_exists.mp htS
    simp only [mapGetOrInsert_found _ _ _ hvf, mapGetOrInsert_found _ _ _ hvt] at hh
    obtain ⟨hvf1, hvf2⟩ := stage1_registry g rn _ vf hvf
    obtain ⟨hvt1, hvt2⟩ := stage1_registry g rn _ vt hvt
    have hnodes : (stage2 g rn rs).road_graph.nodes = (stage1 g rn).road_graph.nodes := by
      rw [stage2_nodes, stage1_nodes]
    have hfr := (runRoadSections_frame (stage1 g rn) rs 0 rs.length).2.2
    refine ⟨?_, ?_, ?_⟩
    · rw [import_graph_road]
      show ((stage2 g rn rs).road_graph.nodes.getD
        ((stage2 g rn rs).road_graph.edges.getD
          (g.road.edges.length + j) dfltRoadEdge).source dfltRoadNode).db_id = _
      rw [stage2, hh]
      show ((runRoadSections (stage1 g rn) rs 0 rs.length).road_graph.nodes.getD
        vf dfltRoadNode).db_id = _
      rw [hfr]
      exact hvf2
    · rw [import_graph_road]
      show ((stage2 g rn rs).road_graph.nodes.getD
        ((stage2 g rn rs).road_graph.edges.getD
          (g.road.edges.length + j) dfltRoadEdge).target dfltRoadNode).db_id = _
      rw [stage2, hh]
      show ((runRoadSections (stage1 g rn) rs 0 rs.length).road_graph.nodes.getD
        vt dfltRoadNode).db_id = _
      rw [hfr]
      exact hvt2
    · rw [import_graph_road]
      show ((stage2 g rn rs).road_graph.edges.getD
        (g.road.edges.length + j) dfltRoadEdge).property.db_id = _
      rw [stage2, hh]
      rfl

/-- Witness for the amended C4 at the spec's end-to-end scenario: nodes 1 and 2,
one section 10 from 1 to 2. -/
theorem c4_graph_counts_witness :
    (import_graph emptyMultimodalGraph [⟨1, false, false⟩, ⟨2, true, false⟩]
        [⟨10, none, 1, 2, 0, 0, 0, 0, 0, 0, "", "", "", 0, false, false, false, false, false⟩]
        [] []).1.road.nodes.length = 2
    ∧ (import_graph emptyMultimodalGraph [⟨1, false, false⟩, ⟨2, true, false⟩]
        [⟨10, none, 1, 2, 0, 0, 0, 0, 0, 0, "", "", "", 0, false, false, false, false, false⟩]
        [] []).1.road.edges.length = 1
    ∧ ((import_graph emptyMultimodalGraph [⟨1, false, false⟩, ⟨2, true, false⟩]
        [⟨10, none, 1, 2, 0, 0, 0, 0, 0, 0, "", "", "", 0, false, false, false, false, false⟩]
        [] []).1.road.nodes.getD
          ((import_graph emptyMultimodalGraph [⟨1, false, false⟩, ⟨2, true, false⟩]
            [⟨10, none, 1, 2, 0, 0, 0, 0, 0, 0, "", "", "", 0, false, false, false, false, false⟩]
            [] []).1.road.edges.getD 0 dfltRoadEdge).source dfltRoadNode).db_id = 1
    ∧ ((import_graph emptyMultimodalGraph [⟨1, false, false⟩, ⟨2, true, false⟩]
        [⟨10, none, 1, 2, 0, 0, 0, 0, 0, 0, "", "", "", 0, false, false, false, false, false⟩]
        [] []).1.road.nodes.getD
          ((import_graph emptyMultimodalGraph [⟨1, false, false⟩, ⟨2, true, false⟩]
            [⟨10, none, 1, 2, 0, 0, 0, 0, 0, 0, "", "", "", 0, false, false, false, false, false⟩]
            [] []).1.road.edges.getD 0 dfltRoadEdge).target dfltRoadNode).db_id = 2 := by
  have h := c4_graph_counts_and_resolution emptyMultimodalGraph
    [⟨1, false, false⟩, ⟨2, true, false⟩]
    [⟨10, none, 1, 2, 0, 0, 0, 0, 0, 0, "", "", "", 0, false, false, false, false, false⟩]
    [] [] (by decide)
  exact ⟨h.1, h.2.1, (h.2.2 0 (by decide)).1, (h.2.2 0 (by decide)).2.1⟩

/-- C5 counterexample: two road nodes share external id 1 and a section then
references id 1.  Contrary to the claim, registration does not fail: both
records are imported (two vertices), and the registry entry was silently
replaced — the section resolves id 1 to vertex 1, the handle of the SECOND
record. -/
theorem c5_duplicate_id_counterexample :
    (import_graph emptyMultimodalGraph [⟨1, false, false⟩, ⟨1, true, false⟩]
        [⟨10, none, 1, 1, 0, 0, 0, 0, 0, 0, "", "", "", 0, false, false, false, false, false⟩]
        [] []).1.road.nodes.length = 2
    ∧ ((import_graph emptyMultimodalGraph [⟨1, false, false⟩, ⟨1, true, false⟩]
        [⟨10, none, 1, 1, 0, 0, 0, 0, 0, 0, "", "", "", 0, false, false, false, false, false⟩]
        [] []).1.road.edges.getD 0 dfltRoadEdge).source = 1
    ∧ mapInsert (mapInsert [] 1 0) 1 1 = [(1, 1)] := ⟨rfl, rfl, rfl⟩

/-- C5 amended: registering an external id that is already registered for the
same record kind silently REPLACES the existing mapping with the new handle —
no error is raised; later resolutions return the newest handle, and entries
for other ids are unaffected. -/
theorem c5_duplicate_id_replaces (m : IdMap) (k v k' : Nat) :
    mapFind? (mapInsert m k v) k = some v
    ∧ (k' ≠ k → mapFind? (mapInsert m k v) k' = mapFind? m k') := by
  constructor
  · rw [mapFind?_insert]
    simp
  · intro hk
    rw [mapFind?_insert, if_neg (fun h => hk h.symm)]

/-- Witness for the amended C5: re-registering id 1 overwrites its handle and
leaves id 2 alone. -/
theorem c5_duplicate_id_witness :
    mapFind? (mapInsert [(1, 0)] 1 1) 1 = some 1
    ∧ mapFind? (mapInsert [(1, 0)] 1 1) 2 = mapFind? [(1, 0)] 2 :=
  ⟨(c5_duplicate_id_replaces [(1, 0)] 1 1 2).1,
   (c5_duplicate_id_replaces [(1, 0)] 1 1 2).2 (by decide)⟩

/-- C2: a stop gets `has_parent = true` (with a parent handle resolving to a
stop carrying the parent's external id, created strictly earlier in the
stream) iff a stop with its `parent_station` id appears strictly before it in
the stop stream; otherwise `has_parent = false`. -/
theorem c2_parent_resolution (g : MultimodalGraph) (rn : List RoadNodeRow)
    (rs : List RoadSectionRow) (sr : List StopRow) (ps : List PtSectionRow)
    (j : Nat) (hj : j < sr.length) :
    (((((import_graph g rn rs sr ps).1.public_transports).getLastD
          emptyPTGraph).stops.getD j dfltStop).has_parent = true
      ↔ (sr.getD j dfltStopRow).parent_station ∈ (sr.take j).map StopRow.id)
    ∧ (((((import_graph g rn rs sr ps).1.public_transports).getLastD
          emptyPTGraph).stops.getD j dfltStop).has_parent = true →
        ((((import_graph g rn rs sr ps).1.public_transports).getLastD
          emptyPTGraph).stops.getD j dfltStop).parent_station < j
        ∧ ((((import_graph g rn rs sr ps).1.public_transports).getLastD
            emptyPTGraph).stops.getD
              (((((import_graph g rn rs sr ps).1.public_transports).getLastD
                emptyPTGraph).stops.getD j dfltStop).parent_station) dfltStop).db_id
          = (sr.getD j dfltStopRow).parent_station) := by
  rw [import_graph_lastPT, stage4_stops]
  have hh := runStops_stops_getD sr (stage2 g rn rs) 0 sr.length j hj
  rw [stage2_pt_graph] at hh
  simp only [emptyPTGraph, List.length_nil, Nat.zero_add] at hh
  rw [stage3, hh]
  simp only [mkStop]
  have hlen : (runStops (stage2 g rn rs) (sr.take j) 0 sr.length).pt_graph.stops.length
      = j := by
    rw [runStops_stops_length, stage2_pt_graph]
    simp only [emptyPTGraph, List.length_nil, Nat.zero_add]
    rw [List.length_take, Nat.min_eq_left (Nat.le_of_lt hj)]
  constructor
  · have hiff := runStops_pt_map_isSome (sr.take j) (stage2 g rn rs) 0 sr.length
      (sr.getD j dfltStopRow).parent_station
    rw [stage2_pt_map] at hiff
    simpa using hiff
  · intro hp
    obtain ⟨v, hv⟩ := Option.isSome_iff_exists.mp hp
    have hreg : PTRegistryOK (runStops (stage2 g rn rs) (sr.take j) 0 sr.length) := by
      refine runStops_registry (sr.take j) (stage2 g rn rs) 0 sr.length ?_
      intro k v' hkv
      rw [stage2_pt_map] at hkv
      simp at hkv
    obtain ⟨hv1, hv2⟩ := hreg _ v hv
    rw [hlen] at hv1
    have hvsr : v < sr.length := by omega
    have hhv := runStops_stops_getD sr (stage2 g rn rs) 0 sr.length v hvsr
    rw [stage2_pt_graph] at hhv
    simp only [emptyPTGraph, List.length_nil, Nat.zero_add] at hhv
    have hhv2 := runStops_stops_getD (sr.take j) (stage2 g rn rs) 0 sr.length v
      (by rw [List.length_take, Nat.min_eq_left (Nat.le_of_lt hj)]; exact hv1)
    rw [stage2_pt_graph] at hhv2
    simp only [emptyPTGraph, List.length_nil, Nat.zero_add] at hhv2
    rw [hhv2] at hv2
    simp only [mkStop] at hv2
    rw [getD_take sr j v dfltStopRow hv1] at hv2
    simp only [hv, Option.getD_some]
    refine ⟨hv1, ?_⟩
    rw [hhv]
    simp only [mkStop]
    exact hv2

/-- Witness for C2 at the spec's stop scenario: stop 100 (no parent) then stop
101 with parent_station = 100 — the second stop resolves its parent, and its
parent handle points at the stop with external id 100. -/
theorem c2_parent_resolution_witness :
    (((((import_graph emptyMultimodalGraph [] [] [⟨100, "", false, 0, 10, 0, 0⟩,
          ⟨101, "", false, 100, 10, 0, 0⟩] []).1.public_transports).getLastD
          emptyPTGraph).stops.getD 1 dfltStop).has_parent = true
      ↔ (100 : Nat) ∈ (([⟨100, "", false, 0, 10, 0, 0⟩, ⟨101, "", false, 100, 10, 0, 0⟩]
          : List StopRow).take 1).map StopRow.id) := by
  have h := (c2_parent_resolution emptyMultimodalGraph [] []
    [⟨100, "", false, 0, 10, 0, 0⟩, ⟨101, "", false, 100, 10, 0, 0⟩] [] 1 (by decide)).1
  exact h

/-! ### The Roadmap / Step / Cost model (src/src/core/roadmap.hh) -/

/-- `Roadmap::Step::StepType`. -/
inductive StepType where
  | RoadStep
  | PublicTransportStep
  | TransferStep
deriving DecidableEq

/-- `Roadmap::RoadStep::EndMovement`. -/
inductive EndMovement where
  | GoAhead
  | TurnLeft
  | TurnRight
  | UTurn
  | RoundAboutEnter
  | FirstExit
  | SecondExit
  | ThirdExit
  | FourthExit
  | FifthExit
  | SixthExit
  | YouAreArrived
deriving DecidableEq

/-- `Costs`: a mapping from the cost-kind enumeration (`CostId`, modelled as
`Nat`; `common.hh` is not under src/) to a numeric value; keys unique, order
irrelevant. -/
abbrev Costs := List (Nat × ℚ)

/-- A step's value for a cost kind; a missing key contributes 0 — the
documented convention the aggregation relies on. -/
def costValue : Costs → Nat → ℚ
  | [], _ => 0
  | (k', v) :: rest, k => if k' = k then v else costValue rest k

/-- `Step::set_cost`: overwrite the entry for the kind, or add one. -/
def setCostEntry : Costs → Nat → ℚ → Costs
  | [], k, c => [(k, c)]
  | (k', v) :: rest, k, c =>
    if k' = k then (k, c) :: rest else (k', v) :: setCostEntry rest k c

/-- The fields shared by all `Step` variants (kind tag held by the sum below). -/
structure StepBase where
  costs : Costs
  transport_mode : Nat
  geometry_wkb : String
deriving DecidableEq

/-- Modelled from the spec: a multimodal-graph location (`MMVertex`;
`common.hh` is not under src/): graph kind, graph instance index, vertex
handle. -/
structure MMVertex where
  gtype : Nat
  gindex : Nat
  vertex : Nat
deriving DecidableEq

/-- Fields specific to `Roadmap::RoadStep`. -/
structure RoadStepData where
  road_edge_id : Nat
  road_name : String
  distance_km : ℚ
  end_movement : EndMovement
deriving DecidableEq

/-- Fields specific to `Roadmap::PublicTransportStep`. -/
structure PublicTransportStepData where
  network_id : Nat
  wait : ℚ
  departure_time : ℚ
  arrival_time : ℚ
  trip_id : Nat
  departure_stop : Nat
  departure_name : String
  arrival_stop : Nat
  arrival_name : String
  route : String
deriving DecidableEq

/-- Fields specific to `Roadmap::TransferStep` (a `Step` that is also an
`MMEdge` between two multimodal locations). -/
structure TransferStepData where
  origin : MMVertex
  dest : MMVertex
  final_mode : Nat
  initial_name : String
  final_name : String
deriving DecidableEq

/-- The polymorphic `Roadmap::Step` hierarchy as a closed sum of its three
dynamic kinds. -/
inductive Step where
  | road (base : StepBase) (data : RoadStepData)
  | publicTransport (base : StepBase) (data : PublicTransportStepData)
  | transfer (base : StepBase) (data : TransferStepData)
deriving DecidableEq

/-- The `step_type` tag set by each variant's constructor. -/
def Step.step_type : Step → StepType
  | .road .. => .RoadStep
  | .publicTransport .. => .PublicTransportStep
  | .transfer .. => .TransferStep

/-- The `costs_` record of a step. -/
def Step.costs : Step → Costs
  | .road b _ => b.costs
  | .publicTransport b _ => b.costs
  | .transfer b _ => b.costs

/-- The virtual `clone()`: each override copy-constructs its own dynamic type
(`new RoadStep(*this)`, etc.), so the clone is a member-wise copy of the same
kind. -/
def Step.clone : Step → Step
  | .road b d => .road b d
  | .publicTransport b d => .publicTransport b d
  | .transfer b d => .transfer b d

/-- A `Roadmap`: the owned, ordered step sequence plus the start timestamp
(the debug `trace` lives in a header not under src/ and carries nothing the
claims touch). -/
structure Roadmap where
  steps : List Step
  starting_date_time : ℚ
deriving DecidableEq

/-- Modelled from the spec: `get_total_costs` is declared at
src/src/core/roadmap.hh:202 but its body is not under src/ — per §3, it
"sums, per cost-kind, the value across all steps; a missing key in a step's
Costs contributes 0 for that kind". -/
def get_total_costs (r : Roadmap) : Nat → ℚ :=
  fun k => r.steps.foldl (fun acc s => acc + costValue (Step.costs s) k) 0

/-- C7: for every Roadmap, `get_total_costs` yields, per cost kind, the sum of
that kind's value over all steps (missing kinds contributing 0 through
`costValue`), and is therefore invariant under permutation of the steps. -/
theorem c7_total_costs_sum_and_perm (r r' : Roadmap) (k : Nat)
    (hperm : r.steps.Perm r'.steps) :
    get_total_costs r k = (r.steps.map (fun s => costValue (Step.costs s) k)).sum
    ∧ get_total_costs r k = get_total_costs r' k := by
  have hfold : ∀ (l : List Step) (c : ℚ),
      l.foldl (fun acc s => acc + costValue (Step.costs s) k) c
        = c + (l.map (fun s => costValue (Step.costs s) k)).sum := by
    intro l
    induction l with
    | nil =>
      intro c
      simp
    | cons s t ih =>
      intro c
      simp only [List.foldl_cons, List.map_cons, List.sum_cons, ih]
      ring
  have h1 : get_total_costs r k
      = (r.steps.map (fun s => costValue (Step.costs s) k)).sum := by
    show r.steps.foldl _ 0 = _
    rw [hfold r.steps 0]
    ring
  have h2 : get_total_costs r' k
      = (r'.steps.map (fun s => costValue (Step.costs s) k)).sum := by
    show r'.steps.foldl _ 0 = _
    rw [hfold r'.steps 0]
    ring
  refine ⟨h1, ?_⟩
  rw [h1, h2]
  exact (hperm.map (fun s => costValue (Step.costs s) k)).sum_eq

/-- Witness for C7: a two-step Roadmap and its reversal have the same total
for cost kind 0. -/
theorem c7_total_costs_witness :
    get_total_costs ⟨[Step.road ⟨[(0, 3)], 0, ""⟩ ⟨5, "", 1, EndMovement.GoAhead⟩,
        Step.transfer ⟨[(0, 2), (1, 7)], 0, ""⟩ ⟨⟨0, 0, 0⟩, ⟨0, 0, 0⟩, 0, "", ""⟩], 0⟩ 0
      = get_total_costs ⟨[Step.transfer ⟨[(0, 2), (1, 7)], 0, ""⟩
          ⟨⟨0, 0, 0⟩, ⟨0, 0, 0⟩, 0, "", ""⟩,
        Step.road ⟨[(0, 3)], 0, ""⟩ ⟨5, "", 1, EndMovement.GoAhead⟩], 0⟩ 0 :=
  (c7_total_costs_sum_and_perm
    ⟨[Step.road ⟨[(0, 3)], 0, ""⟩ ⟨5, "", 1, EndMovement.GoAhead⟩,
      Step.transfer ⟨[(0, 2), (1, 7)], 0, ""⟩ ⟨⟨0, 0, 0⟩, ⟨0, 0, 0⟩, 0, "", ""⟩], 0⟩
    ⟨[Step.transfer ⟨[(0, 2), (1, 7)], 0, ""⟩ ⟨⟨0, 0, 0⟩, ⟨0, 0, 0⟩, 0, "", ""⟩,
      Step.road ⟨[(0, 3)], 0, ""⟩ ⟨5, "", 1, EndMovement.GoAhead⟩], 0⟩ 0
    (List.Perm.swap _ _ _)).2

/-! ### Value-copy independence of steps (C8)

Step values live behind pointers in the C++ (`boost::ptr_vector`,
`new_clone` → virtual `clone()`); independence of a copy is a statement about
distinct heap cells.  The heap is a partial map from addresses to `Step`
values; `heapClone` is `new_clone`: it fills a fresh cell with `clone()` of
the source; `heapMutate` applies one of the `DECLARE_RW_PROPERTY` setters (or
`set_cost`) to the step at one address. -/

/-- One field mutation through the generated setters of the step classes.  A
setter of a variant-specific field applied to a step of another dynamic kind
leaves it unchanged (in C++ such a call does not even type-check). -/
inductive Mutation where
  | setCost (id : Nat) (c : ℚ)
  | setTransportMode (m : Nat)
  | setGeometryWkb (w : String)
  | setRoadEdgeId (x : Nat)
  | setRoadName (x : String)
  | setDistanceKm (x : ℚ)
  | setEndMovement (x : EndMovement)
  | setNetworkId (x : Nat)
  | setWait (x : ℚ)
  | setDepartureTime (x : ℚ)
  | setArrivalTime (x : ℚ)
  | setTripId (x : Nat)
  | setDepartureStop (x : Nat)
  | setDepartureName (x : String)
  | setArrivalStop (x : Nat)
  | setArrivalName (x : String)
  | setRoute (x : String)
  | setFinalMode (x : Nat)
  | setInitialName (x : String)
  | setFinalName (x : String)
deriving DecidableEq

/-- Apply a base-field update to whichever variant the step is. -/
def mapStepBase (u : StepBase → StepBase) : Step → Step
  | .road b d => .road (u b) d
  | .publicTransport b d => .publicTransport (u b) d
  | .transfer b d => .transfer (u b) d

def applyMutation : Mutation → Step → Step
  | .setCost id c, s => mapStepBase (fun b => { b with costs := setCostEntry b.costs id c }) s
  | .setTransportMode m, s => mapStepBase (fun b => { b with transport_mode := m }) s
  | .setGeometryWkb w, s => mapStepBase (fun b => { b with geometry_wkb := w }) s
  | .setRoadEdgeId x, .road b d => .road b { d with road_edge_id := x }
  | .setRoadName x, .road b d => .road b { d with road_name := x }
  | .setDistanceKm x, .road b d => .road b { d with distance_km := x }
  | .setEndMovement x, .road b d => .road b { d with end_movement := x }
  | .setNetworkId x, .publicTransport b d => .publicTransport b { d with network_id := x }
  | .setWait x, .publicTransport b d => .publicTransport b { d with wait := x }
  | .setDepartureTime x, .publicTransport b d =>
      .publicTransport b { d with departure_time := x }
  | .setArrivalTime x, .publicTransport b d =>
      .publicTransport b { d with arrival_time := x }
  | .setTripId x, .publicTransport b d => .publicTransport b { d with trip_id := x }
  | .setDepartureStop x, .publicTransport b d =>
      .publicTransport b { d with departure_stop := x }
  | .setDepartureName x, .publicTransport b d =>
      .publicTransport b { d with departure_name := x }
  | .setArrivalStop x, .publicTransport b d =>
      .publicTransport b { d with arrival_stop := x }
  | .setArrivalName x, .publicTransport b d =>
      .publicTransport b { d with arrival_name := x }
  | .setRoute x, .publicTransport b d => .publicTransport b { d with route := x }
  | .setFinalMode x, .transfer b d => .transfer b { d with final_mode := x }
  | .setInitialName x, .transfer b d => .transfer b { d with initial_name := x }
  | .setFinalName x, .transfer b d => .transfer b { d with final_name := x }
  | _, s => s

/-- A heap of step objects, addressed by `Nat`. -/
def StepHeap : Type := Nat → Option Step

/-- `new_clone(step)` into a fresh cell `dst`: the new cell holds `clone()` of
the step at `src`; every other cell is untouched. -/
def heapClone (h : StepHeap) (src dst : Nat) : StepHeap :=
  fun a => if a = dst then (h src).map Step.clone else h a

/-- Apply one setter to the step stored at address `a`. -/
def heapMutate (h : StepHeap) (a : Nat) (m : Mutation) : StepHeap :=
  fun x => if x = a then (h x).map (applyMutation m) else h x

theorem Step.clone_eq (s : Step) : Step.clone s = s := by
  cases s <;> rfl

/-- C8: copying a step of any of the three kinds produces a fully independent
value of the same dynamic kind: the copy is a member-wise copy of the
original; mutating any field of the copy leaves the original's cell (hence
every field of the original) unchanged, and mutating the original leaves the
copy's cell unchanged. -/
theorem c8_step_copy_independent (h : StepHeap) (a fresh : Nat) (s : Step)
    (m m' : Mutation) (ha : h a = some s) (hf : h fresh = none) :
    heapClone h a fresh fresh = some s
    ∧ Step.step_type (Step.clone s) = Step.step_type s
    ∧ heapMutate (heapClone h a fresh) fresh m a = some s
    ∧ heapMutate (heapClone h a fresh) a m' fresh = some s := by
  have hne : a ≠ fresh := by
    intro he
    rw [he, hf] at ha
    exact Option.noConfusion ha
  have h1 : heapClone h a fresh fresh = some s := by
    show (if fresh = fresh then (h a).map Step.clone else h fresh) = some s
    rw [if_pos rfl, ha]
    simp [Step.clone_eq]
  refine ⟨h1, by rw [Step.clone_eq], ?_, ?_⟩
  · show (if a = fresh then _ else heapClone h a fresh a) = some s
    rw [if_neg hne]
    show (if a = fresh then (h a).map Step.clone else h a) = some s
    rw [if_neg hne, ha]
  · show (if fresh = a then _ else heapClone h a fresh fresh) = some s
    rw [if_neg (fun he => hne he.symm)]
    exact h1

/-- Witness for C8: a concrete one-step heap; mutating the copy's transport
mode does not change the original. -/
theorem c8_step_copy_witness :
    heapMutate (heapClone
        (fun x => if x = 0
          then some (Step.road ⟨[], 0, ""⟩ ⟨0, "", 0, EndMovement.GoAhead⟩)
          else none) 0 1) 1 (Mutation.setTransportMode 5) 0
      = some (Step.road ⟨[], 0, ""⟩ ⟨0, "", 0, EndMovement.GoAhead⟩) :=
  (c8_step_copy_independent
    (fun x => if x = 0
      then some (Step.road ⟨[], 0, ""⟩ ⟨0, "", 0, EndMovement.GoAhead⟩)
      else none) 0 1 (Step.road ⟨[], 0, ""⟩ ⟨0, "", 0, EndMovement.GoAhead⟩)
    (Mutation.setTransportMode 5) (Mutation.setRoadName "x") rfl rfl).2.2.1
